import Mathlib

/-!
Verification of the yaml-jsonpath path-expression engine against its
natural-language specification.

The Go sources are shallowly embedded below.  Strings are modelled as
`List Char` (one `Char` per rune; all inputs appearing in this development
are ASCII, so byte offsets and rune offsets coincide).  Go functions that
can panic are modelled with `Option` (`none` = panic), fallible functions
with `Except`.  Loops whose Go form is `for { ... }` are translated into
structural recursion on the remaining input or on an explicit fuel
parameter; every fuel parameter is chosen at the call site to be provably
sufficient, and fuel exhaustion is modelled as a distinguished failure
value, never as a fake success.

Boundary functions from the Go standard library (`strconv.Atoi`,
`strconv.ParseFloat`, `strings.Split`, `strings.TrimSpace`,
`fmt` verbs used by the lexer's error formatting) are modelled
explicitly next to their first use.  Two deliberate simplifications of
those boundaries, called out again at the definitions: `%q` is modelled
as plain double-quoting (exact for quote- and backslash-free text, which
covers every context string appearing in this development), and
`strconv.ParseFloat` is modelled as an exact rational parser of the
decimal forms (the claims never depend on binary64 rounding, infinities,
NaN, hex floats or underscores), with `unicode.IsSpace` restricted to the
ASCII whitespace characters.
-/

namespace YamlPath

/-- Convert a string literal to the `List Char` representation used throughout. -/
def str (s : String) : List Char := s.toList

/-- The single-quote character, written via its code point. -/
def squote : Char := Char.ofNat 39

/-- ASCII decimal digit test (as used by the Go lexer's numeric scanning). -/
def isDigitCh (c : Char) : Bool := decide ('0' ≤ c) && decide (c ≤ '9')

/-- Model of `unicode.IsSpace` restricted to ASCII whitespace. -/
def isSpaceCh (c : Char) : Bool :=
  c = ' ' || c = '\t' || c = '\n' || c = '\r' || c = Char.ofNat 11 || c = Char.ofNat 12

/-- Model of `strings.HasPrefix` (and the lexer's `hasPrefix`) on char lists. -/
def hasPref : List Char → List Char → Bool
  | [], _ => true
  | _ :: _, [] => false
  | p :: ps, c :: cs => p == c && hasPref ps cs

/-- Model of Go `strings.Split` with a one-character separator:
`strings.Split("", sep) = [""]` and separators are not included. -/
def splitOnChar (sep : Char) : List Char → List (List Char)
  | [] => [[]]
  | c :: rest =>
    match splitOnChar sep rest with
    | [] => [[]]
    | g :: gs => if c = sep then [] :: g :: gs else (c :: g) :: gs

/-- Model of Go `strings.TrimSpace` (ASCII whitespace). -/
def trimSpace (s : List Char) : List Char :=
  ((s.dropWhile (fun c => isSpaceCh c)).reverse.dropWhile (fun c => isSpaceCh c)).reverse

/-- Accumulate a decimal digit string; `none` if empty or a non-digit occurs.
Helper for the `strconv.Atoi` model. -/
def digitsAux : Nat → List Char → Option Nat
  | acc, [] => some acc
  | acc, c :: rest => if isDigitCh c then digitsAux (acc * 10 + (c.toNat - 48)) rest else none

/-- Value of a nonempty all-digit string. -/
def digitsVal : List Char → Option Nat
  | [] => none
  | s => digitsAux 0 s

/-- Model of Go `strconv.Atoi`: optional sign followed by a nonempty digit run.
(Overflow of 64-bit `int` is not modelled; no value in this development
comes near the 64-bit boundary.) -/
def atoiGo (s : List Char) : Option Int :=
  match s with
  | [] => none
  | c :: rest =>
    if c = '-' then (digitsVal rest).map (fun n => -(n : Int))
    else if c = '+' then (digitsVal rest).map (fun n => (n : Int))
    else (digitsVal s).map (fun n => (n : Int))

/-- Decimal digits of a natural number (model of `fmt`'s `%d`). -/
def natDigits (n : Nat) : List Char := Nat.toDigits 10 n

/-- Model of `fmt`'s `%q` as plain double-quoting.  Exact for text free of
quotes, backslashes and control characters, which covers every context
window appearing in this development. -/
def quoteGo (s : List Char) : List Char := '"' :: (s ++ ['"'])

/-- Fractional value of a digit run: digits `d₁…dₖ` denote `0.d₁…dₖ`. -/
def fracVal : List Char → Option Rat
  | [] => some 0
  | c :: rest =>
    if isDigitCh c then
      (fracVal rest).map (fun q => ((c.toNat - 48 : Nat) + q) / 10)
    else none

/-- Split a char list at the first occurrence of a character satisfying `p`. -/
def spanNot (p : Char → Bool) : List Char → List Char × List Char
  | [] => ([], [])
  | c :: rest =>
    if p c then ([], c :: rest)
    else
      match spanNot p rest with
      | (a, b) => (c :: a, b)

/-- Model of Go `strconv.ParseFloat` on the plain decimal forms
`[sign] digits [.digits] [e|E [sign] digits]` (either the integer or the
fraction part may be empty but not both), returning the exact rational
value.  `Inf`, `NaN`, hex floats, underscores and binary64 rounding are
not modelled; no claim in this development depends on them. -/
def parseFloatGo (s : List Char) : Option Rat :=
  let core : List Char → Option Rat := fun t =>
    match spanNot (fun c => c = '.' || c = 'e' || c = 'E') t with
    | (intPart, rest) =>
      let withFrac : Option (Rat × List Char) :=
        match rest with
        | '.' :: rest2 =>
          match spanNot (fun c => c = 'e' || c = 'E') rest2 with
          | (fracPart, rest3) =>
            if intPart = [] ∧ fracPart = [] then none
            else
              match digitsAux 0 intPart, fracVal fracPart with
              | some i, some f => some (((i : Rat) + f, rest3))
              | _, _ => none
        | _ =>
          if intPart = [] then none
          else
            match digitsAux 0 intPart with
            | some i => some ((i : Rat), rest)
            | none => none
      match withFrac with
      | none => none
      | some (mant, rest3) =>
        match rest3 with
        | [] => some mant
        | e :: rest4 =>
          if e = 'e' ∨ e = 'E' then
            match rest4 with
            | '-' :: ds =>
              match digitsVal ds with
              | some k => some (mant / ((10 : Rat) ^ k))
              | none => none
            | '+' :: ds =>
              match digitsVal ds with
              | some k => some (mant * ((10 : Rat) ^ k))
              | none => none
            | ds =>
              match digitsVal ds with
              | some k => some (mant * ((10 : Rat) ^ k))
              | none => none
          else none
  match s with
  | '-' :: rest => (core rest).map (fun q => -q)
  | '+' :: rest => core rest
  | rest => core rest

/-! ### Comparator kernel: `pkg/yamlpath/comparison.go` -/

/-- The four-valued comparison result (`comparison.go` lines 11-18). -/
inductive comparison where
  | compareLessThan
  | compareEqual
  | compareGreaterThan
  | compareIncomparable
  deriving DecidableEq, BEq, Repr

/-- Comparator for `==` (`comparison.go` line 48). -/
def equal (c : comparison) : Bool := c == comparison.compareEqual

/-- Comparator for `!=` (`comparison.go` line 52). -/
def notEqual (c : comparison) : Bool := !(c == comparison.compareEqual)

/-- Comparator for `>` (`comparison.go` line 56). -/
def greaterThan (c : comparison) : Bool := c == comparison.compareGreaterThan

/-- Comparator for `>=` (`comparison.go` line 60). -/
def greaterThanOrEqual (c : comparison) : Bool :=
  c == comparison.compareGreaterThan || c == comparison.compareEqual

/-- Comparator for `<` (`comparison.go` line 64). -/
def lessThan (c : comparison) : Bool := c == comparison.compareLessThan

/-- Comparator for `<=` (`comparison.go` line 68). -/
def lessThanOrEqual (c : comparison) : Bool :=
  c == comparison.compareLessThan || c == comparison.compareEqual

/-- The comparator that rejects everything (`comparison.go` line 72). -/
def falseComparator (_ : comparison) : Bool := false

/-- String comparison: equal on byte equality, otherwise incomparable
(`comparison.go` lines 76-81). -/
def compareStrings (a b : List Char) : comparison :=
  if a = b then comparison.compareEqual else comparison.compareIncomparable

/-- Numeric comparison (`comparison.go` lines 83-91); exact rationals stand
in for float64, see the module comment. -/
def compareFloat64 (lhs rhs : Rat) : comparison :=
  if lhs < rhs then comparison.compareLessThan
  else if lhs > rhs then comparison.compareGreaterThan
  else comparison.compareEqual

/-- Typed node-value comparison (`comparison.go` lines 93-107): compare as
numbers when both sides parse as floats, otherwise as strings. -/
def compareNodeValues (lhs rhs : List Char) : comparison :=
  match parseFloatGo lhs, parseFloatGo rhs with
  | some lf, some rf => compareFloat64 lf rf
  | _, _ => compareStrings lhs rhs

/-- C3.  The six comparison predicates over the four-valued comparison
result match the specification table: `==` accepts exactly `Equal`; `!=`
accepts exactly the other three results; `<`, `>`, `<=`, `>=` accept only
the stated orderings, and all four ordering predicates reject
`Incomparable`. -/
theorem c3_comparator_predicates : ∀ c : comparison,
    (equal c = true ↔ c = comparison.compareEqual) ∧
    (notEqual c = true ↔ c ≠ comparison.compareEqual) ∧
    (lessThan c = true ↔ c = comparison.compareLessThan) ∧
    (greaterThan c = true ↔ c = comparison.compareGreaterThan) ∧
    (lessThanOrEqual c = true ↔
      (c = comparison.compareLessThan ∨ c = comparison.compareEqual)) ∧
    (greaterThanOrEqual c = true ↔
      (c = comparison.compareGreaterThan ∨ c = comparison.compareEqual)) ∧
    (lessThan comparison.compareIncomparable = false ∧
      greaterThan comparison.compareIncomparable = false ∧
      lessThanOrEqual comparison.compareIncomparable = false ∧
      greaterThanOrEqual comparison.compareIncomparable = false) := by
  intro c
  cases c <;> simp [equal, notEqual, lessThan, greaterThan, lessThanOrEqual,
    greaterThanOrEqual] <;> decide

/-! ### Slice resolver: `slice` (snapshot in src/unnamed/part_007, lines 16-96) -/

/-- Ascending index walk: the Go loop `for i := from; i < to; i += step`
with positive step, written with an explicit fuel.  Each iteration advances
`i` by at least one, so `(to - i).toNat + 1` fuel at the call site is
always sufficient; exhausted fuel returns the indices collected so far
(never reached with the call-site fuel). -/
def upIdx (step : Int) : Nat → Int → Int → List Int
  | 0, _, _ => []
  | fuel + 1, i, toV => if i < toV then i :: upIdx step fuel (i + step) toV else []

/-- Descending index walk: the Go loop `for i := from; i > to; i += step`
with negative step, with the same fuel convention. -/
def downIdx (step : Int) : Nat → Int → Int → List Int
  | 0, _, _ => []
  | fuel + 1, i, toV => if i > toV then i :: downIdx step fuel (i + step) toV else []

/-- One slice parameter (`slice` lines 40-59): positional blanks default to
0 / length / 1, anything else must parse as an integer. -/
def sliceParm (length : Int) (i : Nat) (s : List Char) : Except (List Char) Int :=
  let s := trimSpace s
  if i = 0 ∧ s = [] then Except.ok 0
  else if i = 1 ∧ s = [] then Except.ok length
  else if i = 2 ∧ s = [] then Except.ok 1
  else
    match atoiGo s with
    | none => Except.error (str "non-integer array index")
    | some n => Except.ok n

/-- The positional parameter loop of `slice` (lines 39-59). -/
def sliceParms (length : Int) : Nat → List (List Char) → Except (List Char) (List Int)
  | _, [] => Except.ok []
  | i, s :: rest =>
    match sliceParm length i s with
    | Except.error e => Except.error e
    | Except.ok n =>
      match sliceParms length (i + 1) rest with
      | Except.error e => Except.error e
      | Except.ok ns => Except.ok (n :: ns)

/-- The non-union body of `slice` (part_007 lines 28-95): compute `from`,
`to` and `step` from the (at most three) colon-separated components, then
walk.  Note that this snapshot performs no range clamping and no zero-step
check. -/
def sliceOne (index : List Char) (length : Int) : Except (List Char) (List Int) :=
  let index := trimSpace index
  let bounds : Except (List Char) (Int × Int × Int) :=
    if index = str "*" then Except.ok (0, length, 1)
    else
      let sliceParmsS := splitOnChar ':' index
      if sliceParmsS.length > 3 then Except.error (str "malformed array index")
      else
        match sliceParms length 0 sliceParmsS with
        | Except.error e => Except.error e
        | Except.ok p =>
          match p with
          | [] => Except.ok (0, 0, 1)
          | p0 :: prest =>
            let fromToStep1 : Int × Int × Int :=
              if p0 < 0 then (length + p0, length + p0 - 1, -1) else (p0, p0 + 1, 1)
            match fromToStep1 with
            | (from1, to1, step1) =>
              let toStep2 : Int × Int :=
                match prest with
                | [] => (to1, step1)
                | p1 :: _ =>
                  let t := if p1 ≥ 0 then p1 else length + p1
                  (t, if from1 < t then 1 else step1)
              match toStep2 with
              | (to2, step2) =>
                let step3 : Int :=
                  match prest with
                  | _ :: p2 :: _ => p2
                  | _ => step2
                if step3 < 0 ∧ from1 ≤ to2 then Except.ok (to2 - 1, from1 - 1, step3)
                else Except.ok (from1, to2, step3)
  match bounds with
  | Except.error e => Except.error e
  | Except.ok (fromV, toV, stepV) =>
    if stepV > 0 then Except.ok (upIdx stepV ((toV - fromV).toNat + 1) fromV toV)
    else if stepV < 0 then Except.ok (downIdx stepV ((fromV - toV).toNat + 1) fromV toV)
    else Except.ok []

/-- Wrap an inner union-member error (`slice` line 22). -/
def unionErr (i : Nat) (e : List Char) : List Char :=
  str "error in union member " ++ natDigits i ++ str ": " ++ e

/-- The union loop of `slice` (lines 17-27).  The recursive Go call
`slice(idx, length)` re-enters `slice`, but a union member produced by
`strings.Split(index, ",")` can never itself contain a comma, so on every
member the recursive call takes the non-union branch; the embedding calls
`sliceOne` directly. -/
def sliceUnion (length : Int) : Nat → List (List Char) → Except (List Char) (List Int)
  | _, [] => Except.ok []
  | i, idx :: rest =>
    match sliceOne idx length with
    | Except.error e => Except.error (unionErr i e)
    | Except.ok sl =>
      match sliceUnion length (i + 1) rest with
      | Except.error e => Except.error e
      | Except.ok tl => Except.ok (sl ++ tl)

/-- `slice` (src/unnamed/part_007 lines 16-96): resolve an array-subscript
body against a sequence length. -/
def slice (index : List Char) (length : Int) : Except (List Char) (List Int) :=
  match splitOnChar ',' index with
  | [] => sliceOne index length
  | [_] => sliceOne index length
  | union => sliceUnion length 0 union

/-- C4.  The slice resolver in the source does not clamp: the single index
`4` against a sequence of length `4` resolves to `[4]`, an index with
`4 ≥ 4`, i.e. outside `[0, N)` — the repository's own slicer test
(`TestSlicer`, case "overflowed index") expects `[]` here. -/
theorem c4_slice_out_of_range :
    slice (str "4") 4 = Except.ok [4] ∧ (4 : Int) ≥ 4 := by
  constructor
  · rfl
  · decide

/-! ### Lexeme types (src/unnamed/part_005, lines 85-115) -/

/-- The closed enumeration of lexeme kinds (part_005 lines 87-115).  This
snapshot of the lexer has no boolean or null literal lexemes. -/
inductive lexemeType where
  | lexemeError
  | lexemeIdentity
  | lexemeRoot
  | lexemeDotChild
  | lexemeBracketChild
  | lexemeRecursiveDescent
  | lexemeArraySubscript
  | lexemeFilterBegin
  | lexemeFilterEnd
  | lexemeFilterOpenBracket
  | lexemeFilterCloseBracket
  | lexemeFilterNot
  | lexemeFilterAt
  | lexemeFilterAnd
  | lexemeFilterOr
  | lexemeFilterEquality
  | lexemeFilterInequality
  | lexemeFilterGreaterThan
  | lexemeFilterGreaterThanOrEqual
  | lexemeFilterLessThanOrEqual
  | lexemeFilterLessThan
  | lexemeFilterMatchesRegularExpression
  | lexemeFilterIntegerLiteral
  | lexemeFilterFloatLiteral
  | lexemeFilterStringLiteral
  | lexemeFilterRegularExpressionLiteral
  | lexemeEOF
  deriving DecidableEq, BEq, Repr

/-- A lexeme: kind plus value text (part_005 lines 21-24). -/
structure lexeme where
  typ : lexemeType
  val : List Char
  deriving DecidableEq, BEq, Repr

/-- `lexeme.comparator` (part_005 lines 60-83): the comparator predicate
selected by a comparison lexeme. -/
def comparatorOf : lexemeType → (comparison → Bool)
  | lexemeType.lexemeFilterEquality => equal
  | lexemeType.lexemeFilterInequality => notEqual
  | lexemeType.lexemeFilterGreaterThan => greaterThan
  | lexemeType.lexemeFilterGreaterThanOrEqual => greaterThanOrEqual
  | lexemeType.lexemeFilterLessThan => lessThan
  | lexemeType.lexemeFilterLessThanOrEqual => lessThanOrEqual
  | _ => falseComparator

/-! ### Filter value kernel: `filter.go` (snapshot in src/unnamed/part_010,
lines 16-228) -/

/-- `valueType` (part_010 lines 143-153). -/
inductive valueType where
  | unknownValueType
  | stringValueType
  | intValueType
  | floatValueType
  | booleanValueType
  | nullValueType
  | regularExpressionValueType
  deriving DecidableEq, BEq, Repr

/-- `valueType.isNumeric` (part_010 lines 155-157). -/
def isNumeric : valueType → Bool
  | valueType.intValueType => true
  | valueType.floatValueType => true
  | _ => false

/-- `valueType.compatibleWith` (part_010 lines 159-161). -/
def compatibleWith (vt vt2 : valueType) : Bool :=
  isNumeric vt && isNumeric vt2 || vt == vt2 ||
    (vt == valueType.stringValueType && vt2 == valueType.regularExpressionValueType)

/-- `typedValue` (part_010 lines 163-166). -/
structure typedValue where
  typ : valueType
  val : List Char
  deriving DecidableEq, BEq, Repr

/-- Result of the inner pair loop of `nodeToFilter`: either an early
`return` with a boolean, or fall through carrying the `match` flag. -/
inductive scanOut where
  | ret (b : Bool)
  | cont (m : Bool)
  deriving DecidableEq, Repr

/-- The inner loop of `nodeToFilter` (part_010 lines 78-88) for one left
value `lv` over the right-hand list: the first incompatible pair returns
`axy` (the value of `accept "x" "y"`, as computed at line 81 of the
source), the first rejected pair returns `false`, and otherwise the
`match` flag is set by each processed pair. -/
def innerScan (accept : List Char → List Char → Bool) (axy : Bool) (lv : typedValue) :
    List typedValue → Bool → scanOut
  | [], m => scanOut.cont m
  | rv :: rs, _m =>
    if compatibleWith lv.typ rv.typ = false then scanOut.ret axy
    else if accept lv.val rv.val = false then scanOut.ret false
    else innerScan accept axy lv rs true

/-- The outer loop of `nodeToFilter` (part_010 lines 76-89) over the
left-hand list, threading the `match` flag. -/
def outerScan (accept : List Char → List Char → Bool) (axy : Bool) (rs : List typedValue) :
    List typedValue → Bool → Bool
  | [], m => m
  | lv :: ls, m =>
    match innerScan accept axy lv rs m with
    | scanOut.ret b => b
    | scanOut.cont m2 => outerScan accept axy rs ls m2

/-- The evaluation core of `nodeToFilter` (part_010 lines 73-91) applied to
the two scanner outputs: the double loop with its two early returns,
starting with `match := false`. -/
def nodeToFilterRun (accept : List Char → List Char → Bool)
    (ls rs : List typedValue) : Bool :=
  outerScan accept (accept (str "x") (str "y")) rs ls false

/-- `nodeToFilter` itself (part_010 lines 73-91), abstracted over the two
scanners built from `n.children[0]` and `n.children[1]` by
`newFilterScanner` (the filter-parser file that constructs those children
is not part of this snapshot). -/
def nodeToFilter {node : Type} (lhsPath rhsPath : node → node → List typedValue)
    (accept : List Char → List Char → Bool) (n root : node) : Bool :=
  nodeToFilterRun accept (lhsPath n root) (rhsPath n root)

/-- The accept function built by `comparisonFilter` (part_010 lines 67-71)
for a comparison lexeme of kind `t`. -/
def comparisonFilterAccept (t : lexemeType) (l r : List Char) : Bool :=
  comparatorOf t (compareNodeValues l r)

/-- A pair is fully acceptable when the types are compatible and the
accept function passes on the values. -/
def pairOk (accept : List Char → List Char → Bool) (lv rv : typedValue) : Prop :=
  compatibleWith lv.typ rv.typ = true ∧ accept lv.val rv.val = true

lemma innerScan_ok (accept : List Char → List Char → Bool) (axy : Bool) (lv : typedValue)
    (rs : List typedValue) (h : ∀ rv ∈ rs, pairOk accept lv rv) :
    ∀ m, innerScan accept axy lv rs m = scanOut.cont (m || !rs.isEmpty) := by
  induction rs with
  | nil => intro m; simp [innerScan]
  | cons rv rs ih =>
    intro m
    obtain ⟨h1, h2⟩ := h rv (List.mem_cons_self rv rs)
    rw [innerScan, if_neg (by simp [h1]), if_neg (by simp [h2]),
      ih (fun r hr => h r (List.mem_cons_of_mem rv hr)) true]
    simp

lemma innerScan_bad (accept : List Char → List Char → Bool) (lv : typedValue)
    (rs : List typedValue) (h : ¬ ∀ rv ∈ rs, pairOk accept lv rv) :
    ∀ m, innerScan accept false lv rs m = scanOut.ret false := by
  induction rs with
  | nil => exact absurd (by simp) h
  | cons rv rs ih =>
    intro m
    rcases Classical.em (pairOk accept lv rv) with ⟨h1, h2⟩ | hbad
    · rw [innerScan, if_neg (by simp [h1]), if_neg (by simp [h2])]
      have hrest : ¬ ∀ r ∈ rs, pairOk accept lv r := by
        intro hall
        apply h
        intro r hr
        rcases List.mem_cons.mp hr with rfl | hmem
        · exact ⟨h1, h2⟩
        · exact hall r hmem
      exact ih hrest true
    · rcases Classical.em (compatibleWith lv.typ rv.typ = true) with h1 | h1
      · have h2 : accept lv.val rv.val = false := by
          rcases Bool.eq_false_or_eq_true (accept lv.val rv.val) with h2 | h2
          · exact absurd ⟨h1, h2⟩ hbad
          · exact h2
        rw [innerScan, if_neg (by simp [h1]), if_pos h2]
      · have h1' : compatibleWith lv.typ rv.typ = false := by
          rcases Bool.eq_false_or_eq_true (compatibleWith lv.typ rv.typ) with hc | hc
          · exact absurd hc h1
          · exact hc
        rw [innerScan, if_pos h1']

lemma outerScan_characterisation (accept : List Char → List Char → Bool)
    (rs : List typedValue) : ∀ (ls : List typedValue) (m : Bool),
    (outerScan accept false rs ls m = true ↔
      ((∀ lv ∈ ls, ∀ rv ∈ rs, pairOk accept lv rv) ∧
        (m = true ∨ (ls ≠ [] ∧ rs ≠ [])))) := by
  intro ls
  induction ls with
  | nil => intro m; simp [outerScan]
  | cons lv ls ih =>
    intro m
    rcases Classical.em (∀ rv ∈ rs, pairOk accept lv rv) with hrow | hrow
    · rw [outerScan, innerScan_ok accept false lv rs hrow m, ih]
      constructor
      · rintro ⟨hall, hflag⟩
        refine ⟨?_, ?_⟩
        · intro l hl r hr
          rcases List.mem_cons.mp hl with rfl | hmem
          · exact hrow r hr
          · exact hall l hmem r hr
        · rcases hflag with hflag | ⟨_, hrs⟩
          · rcases Bool.or_eq_true_iff.mp hflag with hm | hne
            · exact Or.inl hm
            · refine Or.inr ⟨by simp, ?_⟩
              intro hrsnil
              subst hrsnil
              simp at hne
          · exact Or.inr ⟨by simp, hrs⟩
      · rintro ⟨hall, hflag⟩
        refine ⟨fun l hl r hr => hall l (List.mem_cons_of_mem lv hl) r hr, ?_⟩
        rcases hflag with hm | ⟨_, hrs⟩
        · exact Or.inl (by simp [hm])
        · left
          have hiso : rs.isEmpty = false := by
            cases rs
            · exact absurd rfl hrs
            · rfl
          simp [hiso]
    · rw [outerScan, innerScan_bad accept lv rs hrow m]
      simp only [Bool.false_eq_true, false_iff, not_and, not_or]
      intro hall
      exact absurd (fun r hr => hall lv (List.mem_cons_self lv ls) r hr) hrow

/-- The five comparison lexeme kinds whose comparator rejects
`Incomparable`: `==`, `>`, `>=`, `<`, `<=` (all but `!=`). -/
def rejectsIncomparable : lexemeType → Bool
  | lexemeType.lexemeFilterEquality => true
  | lexemeType.lexemeFilterGreaterThan => true
  | lexemeType.lexemeFilterGreaterThanOrEqual => true
  | lexemeType.lexemeFilterLessThan => true
  | lexemeType.lexemeFilterLessThanOrEqual => true
  | _ => false

/-- C2 (counterexample).  The claim states that the comparison predicate is
true only when every pair drawn from the two scanned value lists has
compatible types.  For the `!=` operator this fails: the integer value `1`
against the string value `a` is an incompatible pair, yet the predicate
built for `!=` returns `true` (the source returns `accept "x" "y"`, and
`notEqual` accepts the `Incomparable` comparison of the two placeholder
strings). -/
theorem c2_counterexample_inequality_incompatible :
    nodeToFilterRun (comparisonFilterAccept lexemeType.lexemeFilterInequality)
      [⟨valueType.intValueType, str "1"⟩] [⟨valueType.stringValueType, str "a"⟩] = true ∧
    compatibleWith valueType.intValueType valueType.stringValueType = false := by
  exact ⟨rfl, rfl⟩

/-- C2 (amended).  For the five comparison operators whose comparator
rejects `Incomparable` (`==`, `>`, `>=`, `<`, `<=`) the claim holds as
stated: the predicate is true iff both scanners produce at least one value
and every pair from the cross product has compatible types and is accepted
by the comparator; in particular an empty side gives `false`.  For `!=`
the claim must be weakened: an incompatible pair does not force the
predicate false — the scan stops at the first incompatible pair and
returns the comparator's verdict on the incomparable placeholder
comparison, which `notEqual` accepts, so any singleton pair of
incompatible values satisfies the `!=` predicate. -/
theorem c2_comparison_characterisation :
    (∀ t : lexemeType, rejectsIncomparable t = true → ∀ ls rs : List typedValue,
      (nodeToFilterRun (comparisonFilterAccept t) ls rs = true ↔
        (ls ≠ [] ∧ rs ≠ [] ∧
          ∀ lv ∈ ls, ∀ rv ∈ rs, compatibleWith lv.typ rv.typ = true ∧
            comparisonFilterAccept t lv.val rv.val = true))) ∧
    (∀ lv rv : typedValue, compatibleWith lv.typ rv.typ = false →
      nodeToFilterRun (comparisonFilterAccept lexemeType.lexemeFilterInequality)
        [lv] [rv] = true) := by
  constructor
  · intro t ht ls rs
    have haxy : comparisonFilterAccept t (str "x") (str "y") = false := by
      revert ht
      cases t <;> intro ht <;> first
        | rfl
        | exact absurd ht (by decide)
    unfold nodeToFilterRun
    rw [haxy, outerScan_characterisation]
    unfold pairOk
    constructor
    · rintro ⟨hall, h2⟩
      rcases h2 with h2 | ⟨h3, h4⟩
      · cases h2
      · exact ⟨h3, h4, hall⟩
    · rintro ⟨h1, h2, hall⟩
      exact ⟨hall, Or.inr ⟨h1, h2⟩⟩
  · intro lv rv h
    unfold nodeToFilterRun outerScan
    rw [innerScan, if_pos h]
    rfl

/-- C2 (witness).  The characterisation applied at concrete inputs: for
`==` on the singleton lists holding the integer value `1` on both sides
the predicate is true, and for `!=` on the incompatible pair
(boolean `true`, integer `1`) the predicate is true. -/
theorem c2_comparison_witness :
    (rejectsIncomparable lexemeType.lexemeFilterEquality = true ∧
      nodeToFilterRun (comparisonFilterAccept lexemeType.lexemeFilterEquality)
        [⟨valueType.intValueType, str "1"⟩] [⟨valueType.intValueType, str "1"⟩] = true) ∧
    (compatibleWith valueType.booleanValueType valueType.intValueType = false ∧
      nodeToFilterRun (comparisonFilterAccept lexemeType.lexemeFilterInequality)
        [⟨valueType.booleanValueType, str "true"⟩]
        [⟨valueType.intValueType, str "1"⟩] = true) := by
  refine ⟨⟨rfl, ?_⟩, ⟨rfl, ?_⟩⟩
  · exact (c2_comparison_characterisation.1 lexemeType.lexemeFilterEquality rfl
      [⟨valueType.intValueType, str "1"⟩] [⟨valueType.intValueType, str "1"⟩]).mpr
      (by
        refine ⟨by simp, by simp, ?_⟩
        intro lv hlv rv hrv
        simp only [List.mem_singleton] at hlv hrv
        subst hlv
        subst hrv
        exact ⟨rfl, by rfl⟩)
  · exact c2_comparison_characterisation.2 ⟨valueType.booleanValueType, str "true"⟩
      ⟨valueType.intValueType, str "1"⟩ rfl
/-! ### Lexer state machine (src/unnamed/part_005, lines 119-817)

The Go lexer runs as a goroutine feeding a channel of capacity 2 that
`nextLexeme` drains, advancing the state machine only when the channel is
empty.  The embedding makes the channel an explicit FIFO queue inside the
lexer record and each Go state function a total function from lexer to
lexer that appends the lexemes it emits and records the next state
(`none` = the Go `nil` state, lexing complete).  The `width` field of the
Go lexer exists only to implement `backup`; the scanning loops are
translated directly, so it has no counterpart here.  The `name` field is
never read and is dropped. -/

/-- The state functions of the lexer that can appear as a current state or
on the continuation stack. -/
inductive stateTag where
  | stLexPath
  | stLexRoot
  | stLexSubPath
  | stLexOptionalArrayIndex
  | stLexFilterExprInitial
  | stLexFilterExpr
  | stLexFilterTerm
  | stLexFilterEnd
  deriving DecidableEq, BEq, Repr

/-- The lexer state (part_005 lines 122-133). -/
structure Lexer where
  input : List Char
  start : Nat
  pos : Nat
  state : Option stateTag
  stack : List stateTag
  items : List lexeme
  lastEmittedStart : Nat
  lastEmittedLexemeType : lexemeType
  deriving DecidableEq, Repr

/-- `lex` (part_005 lines 136-146): the initial lexer state. -/
def lexInit (input : List Char) : Lexer :=
  { input := input, start := 0, pos := 0, state := some stateTag.stLexPath,
    stack := [], items := [], lastEmittedStart := 0,
    lastEmittedLexemeType := lexemeType.lexemeEOF }

/-- The input from the current position on. -/
def restOf (l : Lexer) : List Char := l.input.drop l.pos

/-- `l.hasPrefix p` (part_005 lines 276-278). -/
def hasPrefL (p : List Char) (l : Lexer) : Bool := hasPref p (restOf l)

/-- `l.peek` (part_005 lines 201-208), with `none` for the eof rune. -/
def peekL (l : Lexer) : Option Char := (restOf l).head?

/-- `l.value()` (part_005 lines 243-245): the text scanned so far. -/
def valueL (l : Lexer) : List Char := (l.input.drop l.start).take (l.pos - l.start)

/-- `l.context()` (part_005 lines 249-251): last emitted lexeme plus the
portion of the current lexeme scanned so far. -/
def contextL (l : Lexer) : List Char :=
  (l.input.drop l.lastEmittedStart).take (l.pos - l.lastEmittedStart)

/-- `l.nextChar()` (part_005 lines 254-261). -/
def nextCharL (l : Lexer) : List Char :=
  match peekL l with
  | some c => [c]
  | none => []

/-- Advance the position by `n` runes (a run of `l.next()` calls). -/
def advance (n : Nat) (l : Lexer) : Lexer := { l with pos := l.pos + n }

/-- `l.emit typ` (part_005 lines 232-240). -/
def emitL (typ : lexemeType) (l : Lexer) : Lexer :=
  { l with
    items := l.items ++ [⟨typ, valueL l⟩]
    lastEmittedStart := l.start
    start := l.pos
    lastEmittedLexemeType := typ }

/-- `l.emitSynthetic typ val` (part_005 lines 265-270): queue a lexeme
without touching positions or the last-emitted bookkeeping. -/
def emitSyntheticL (typ : lexemeType) (val : List Char) (l : Lexer) : Lexer :=
  { l with items := l.items ++ [⟨typ, val⟩] }

/-- `l.errorf` (part_005 lines 281-287): append position and quoted context
to the message, emit the error lexeme and halt. -/
def errorfL (msg : List Char) (l : Lexer) : Lexer :=
  { l with
    items := l.items ++ [⟨lexemeType.lexemeError,
      msg ++ str " at position " ++ natDigits l.pos ++ str ", following " ++
        quoteGo (contextL l)⟩],
    state := none }

/-- `l.rawErrorf` (part_005 lines 290-296): emit the error lexeme verbatim
and halt. -/
def rawErrorfL (msg : List Char) (l : Lexer) : Lexer :=
  { l with items := l.items ++ [⟨lexemeType.lexemeError, msg⟩], state := none }

/-- `l.push` (part_005 lines 149-151); the Go slice grows at the end and
pops from the end, modelled by consing at the head. -/
def pushStack (t : stateTag) (l : Lexer) : Lexer := { l with stack := t :: l.stack }

/-- `l.pop` (part_005 lines 154-162) combined with entering the popped
state; an empty stack is the error function. -/
def popState (l : Lexer) : Lexer :=
  match l.stack with
  | [] => errorfL (str "lexer stack underflow") l
  | t :: rest => { l with stack := rest, state := some t }

/-- Enter the given state. -/
def setState (t : stateTag) (l : Lexer) : Lexer := { l with state := some t }

/-- Length of the whitespace run at the head. -/
def countWS : List Char → Nat
  | [] => 0
  | c :: rest => if isSpaceCh c then countWS rest + 1 else 0

/-- `l.stripWhitespace` (part_005 lines 218-229). -/
def stripWS (l : Lexer) : Lexer :=
  let n := countWS (restOf l)
  { l with pos := l.pos + n, start := l.pos + n }

/-- Scan length until a stop character or end of input (the name-reading
loops of `lexSubPath`). -/
def scanStops (stops : List Char) : List Char → Nat
  | [] => 0
  | c :: rest => if stops.contains c then 0 else scanStops stops rest + 1

/-- Scan for the closing `']` of a bracket child (part_005 lines 400-411):
number of name characters before the `']`, or `none` if the input ends
first. -/
def scanToQuoteBracket : List Char → Option Nat
  | [] => none
  | [_] => none
  | c1 :: c2 :: rest =>
    if c1 = squote ∧ c2 = ']' then some 0
    else (scanToQuoteBracket (c2 :: rest)).map Nat.succ

/-- Scan for the closing `]` of an array subscript (part_005 lines
436-446): number of body characters, or `none` at end of input. -/
def scanToRightBracket : List Char → Option Nat
  | [] => none
  | c :: rest => if c = ']' then some 0 else (scanToRightBracket rest).map Nat.succ

/-- Scan a string literal body (part_005 lines 774-781): the loop consumes
one character (the opening quote first) and stops when the remaining input
starts with a quote; returns the number of characters consumed by the
loop, `none` if the input ends first. -/
def scanStringLit : List Char → Option Nat
  | [] => none
  | _ :: rest =>
    match rest with
    | r :: _ => if r = squote then some 1 else (scanStringLit rest).map Nat.succ
    | [] => none

/-- Scan the run of digits and dots after the first numeric character
(part_005 lines 739-749): returns the run length and whether a dot was
seen within it. -/
def scanNumTail : List Char → Nat × Bool
  | [] => (0, false)
  | c :: rest =>
    if c = '.' then
      match scanNumTail rest with
      | (n, _) => (n + 1, true)
    else if isDigitCh c then
      match scanNumTail rest with
      | (n, f) => (n + 1, f)
    else (0, false)

/-- Scan a regular expression body with `\/` escapes (part_005 lines
796-809): the loop consumes one character and breaks when, outside an
escape, the remaining input starts with `/`; returns the number of
characters consumed by the loop, `none` at end of input. -/
def scanRegex : Bool → List Char → Option Nat
  | _, [] => none
  | esc, _ :: rest =>
    if !esc ∧ rest.head? = some '/' then some 1
    else (scanRegex (!esc && rest.head? == some '\\') rest).map Nat.succ

/-- `validateArrayIndex` (part_005 lines 714-733): purely syntactic check
of the bracketed subscript just scanned; on failure the error lexeme is
emitted via `rawErrorf` and the caller halts the machine.  Note that this
snapshot splits only on colons, so a comma-separated union such as `[0,2]`
fails the integer check.  Returns the Go function's boolean and the
(possibly error-carrying) lexer. -/
def validateArrayIndex (l : Lexer) : Bool × Lexer :=
  let subscript := valueL l
  let index := (if hasPref (str "[") subscript then subscript.drop 1 else subscript)
  let index := if index.getLast? = some ']' then index.dropLast else index
  if index = str "*" then (true, l)
  else
    let sliceParmsS := splitOnChar ':' index
    if sliceParmsS.length > 3 then
      (false, rawErrorfL (str "invalid array index, too many colons: " ++ subscript ++
        str " before position " ++ natDigits l.pos) l)
    else if sliceParmsS.any (fun s => !s.isEmpty && (atoiGo s).isNone) then
      (false, rawErrorfL (str "invalid array index containing non-integer value: " ++
        subscript ++ str " before position " ++ natDigits l.pos) l)
    else (true, l)

/-- `lexNumericLiteral` (part_005 lines 735-768).  Returns `none` when the
input does not start a numeric literal (the Go `false` return); otherwise
the updated lexer.  As in the source, on success the next state is the
hard-coded `lexFilterExpr`.  `strconv` range errors are not modelled (no
literal in this development is near the 64-bit or float range limits). -/
def lexNumericLiteral (l : Lexer) : Option Lexer :=
  match peekL l with
  | none => none
  | some c =>
    if (c == '.') || (c == '-') || isDigitCh c then
      match scanNumTail (List.drop (l.pos + 1) l.input) with
      | (k, sawDot) =>
        let float := (c == '.') || sawDot
        let l1 := advance (1 + k) l
        if float then
          match parseFloatGo (valueL l1) with
          | none => some (rawErrorfL (str "invalid float literal " ++ quoteGo (valueL l1) ++
              str ": invalid syntax before position " ++ natDigits l1.pos) l1)
          | some _ => some (setState stateTag.stLexFilterExpr
              (emitL lexemeType.lexemeFilterFloatLiteral l1))
        else
          match atoiGo (valueL l1) with
          | none => some (rawErrorfL (str "invalid integer literal " ++ quoteGo (valueL l1) ++
              str ": invalid syntax before position " ++ natDigits l1.pos) l1)
          | some _ => some (setState stateTag.stLexFilterExpr
              (emitL lexemeType.lexemeFilterIntegerLiteral l1))
    else none

/-- `lexStringLiteral` (part_005 lines 770-788).  Returns `none` when the
input does not start with a string delimiter. -/
def lexStringLiteral (l : Lexer) (nextState : stateTag) : Option Lexer :=
  if hasPrefL [squote] l then
    match scanStringLit (restOf l) with
    | none => some (rawErrorfL (str "unmatched string delimiter " ++ quoteGo [squote] ++
        str " at position " ++ natDigits l.pos ++ str ", following " ++
        quoteGo (contextL l)) { l with pos := l.input.length })
    | some k => some (setState nextState
        (emitL lexemeType.lexemeFilterStringLiteral (advance (k + 1) l)))
  else none

/-- The scanning body of `lexRegularExpressionLiteral` (part_005 lines
794-816), past the leading-slash check. -/
def lexRegexBody (l : Lexer) (nextState : stateTag) : Lexer :=
  match scanRegex false (restOf l) with
  | none => rawErrorfL (str "unmatched regular expression delimiter " ++
      quoteGo (str "/") ++ str " at position " ++ natDigits l.pos ++
      str ", following " ++ quoteGo (contextL l)) { l with pos := l.input.length }
  | some k => setState nextState
      (emitL lexemeType.lexemeFilterRegularExpressionLiteral (advance (k + 1) l))

/-- `lexRegularExpressionLiteral` (part_005 lines 790-817).  The
`regexp.Compile` validity check is an external boundary and is modelled as
always succeeding; no claim exercises an invalid regular expression. -/
def lexRegularExpressionLiteral (l : Lexer) (nextState : stateTag) : Lexer :=
  if hasPrefL (str "/") l = false then
    errorfL (str "regular expression does not start with /") l
  else lexRegexBody l nextState

/-- `lexPath` (part_005 lines 326-339). -/
def lexPathF (l : Lexer) : Lexer :=
  if (restOf l).isEmpty then
    { emitL lexemeType.lexemeEOF (emitL lexemeType.lexemeIdentity l) with state := none }
  else if hasPrefL (str "$") l then setState stateTag.stLexRoot l
  else setState stateTag.stLexSubPath (emitSyntheticL lexemeType.lexemeRoot (str "$") l)

/-- `lexRoot` (part_005 lines 341-345). -/
def lexRootF (l : Lexer) : Lexer :=
  setState stateTag.stLexSubPath (emitL lexemeType.lexemeRoot (advance 1 l))

/-- `lexSubPath` (part_005 lines 347-430). -/
def lexSubPathF (l : Lexer) : Lexer :=
  if hasPrefL (str ")") l then popState l
  else if (restOf l).isEmpty then
    if l.stack.isEmpty = false then popState l
    else { emitL lexemeType.lexemeEOF (emitL lexemeType.lexemeIdentity l) with state := none }
  else if hasPrefL (str "..") l then
    let l1 := advance 2 l
    let n := scanStops ['.', '['] (restOf l1)
    if n = 0 then errorfL (str "child name missing") l1
    else setState stateTag.stLexSubPath
      (emitL lexemeType.lexemeRecursiveDescent (advance n l1))
  else if hasPrefL (str ".") l then
    let l1 := advance 1 l
    let n := scanStops ['.', '[', ')', ' ', '&', '|', '=', '!', '>', '<'] (restOf l1)
    if n = 0 then errorfL (str "child name missing") l1
    else setState stateTag.stLexOptionalArrayIndex
      (emitL lexemeType.lexemeDotChild (advance n l1))
  else if hasPrefL ('[' :: [squote]) l then
    let l1 := advance 2 l
    match scanToQuoteBracket (restOf l1) with
    | none => errorfL (str "unmatched [" ++ [squote]) { l1 with pos := l1.input.length }
    | some k =>
      let l2 := advance (k + 2) l1
      if k = 0 then
        rawErrorfL (str "child name missing from [" ++ [squote, squote] ++
          str "] before position " ++ natDigits l2.pos) l2
      else setState stateTag.stLexOptionalArrayIndex
        (emitL lexemeType.lexemeBracketChild l2)
  else if hasPrefL (str "[?(") l then
    setState stateTag.stLexFilterExprInitial
      (pushStack stateTag.stLexFilterEnd
        (emitL lexemeType.lexemeFilterBegin (advance 3 l)))
  else
    errorfL (str "invalid path syntax at position " ++ natDigits l.pos ++
      str ", following " ++ quoteGo (contextL l)) l

/-- The common tail of `lexOptionalArrayIndex` (part_005 lines 456-464):
a filter-expression delimiter next pops back into an outer filter context
(or is an error at top level); anything else resumes `lexSubPath`. -/
def afterIndex (l' : Lexer) : Lexer :=
  match peekL l' with
  | some c =>
    if c = ' ' ∨ c = '&' ∨ c = '|' ∨ c = '=' ∨ c = '!' ∨ c = '>' ∨ c = '<' then
      if l'.stack.isEmpty then errorfL (str "invalid character " ++ quoteGo [c]) l'
      else popState l'
    else setState stateTag.stLexSubPath l'
  | none => setState stateTag.stLexSubPath l'

/-- `lexOptionalArrayIndex` (part_005 lines 432-465).  The `[...]` branch
returns early on its error paths (machine halted); otherwise control falls
through to `afterIndex`. -/
def lexOptionalArrayIndexF (l : Lexer) : Lexer :=
  if hasPrefL (str "[") l ∧ hasPrefL ('[' :: [squote]) l = false ∧
      hasPrefL (str "[?(") l = false then
    let l1 := advance 1 l
    match scanToRightBracket (restOf l1) with
    | none => errorfL (str "unmatched [") { l1 with pos := l1.input.length }
    | some k =>
      let l2 := advance (k + 1) l1
      if k = 0 then
        rawErrorfL (str "subscript missing from [] before position " ++
          natDigits l2.pos) l2
      else
        match validateArrayIndex l2 with
        | (false, l3) => { l3 with state := none }
        | (true, l3) => afterIndex (emitL lexemeType.lexemeArraySubscript l3)
  else afterIndex l

/-- The dispatch of `lexFilterExprInitial` (part_005 lines 467-534) on the
whitespace-stripped lexer. -/
def lexFilterExprInitialDispatch (l : Lexer) : Lexer :=
  match lexNumericLiteral l with
  | some l' => l'
  | none =>
  match lexStringLiteral l stateTag.stLexFilterExpr with
  | some l' => l'
  | none =>
  if hasPrefL (str "(") l then
    setState stateTag.stLexFilterExprInitial
      (pushStack stateTag.stLexFilterExpr
        (emitL lexemeType.lexemeFilterOpenBracket (advance 1 l)))
  else if hasPrefL (str ")") l ∧ hasPrefL (str ")]") l = false then
    popState (emitL lexemeType.lexemeFilterCloseBracket (advance 1 l))
  else if hasPrefL (str "!=") l then
    errorfL (str "missing first operand for binary operator !=") l
  else if hasPrefL (str "!") l then
    setState stateTag.stLexFilterExprInitial
      (emitL lexemeType.lexemeFilterNot (advance 1 l))
  else if hasPrefL (str "@") l then
    setState stateTag.stLexSubPath
      (pushStack stateTag.stLexFilterExpr (emitL lexemeType.lexemeFilterAt (advance 1 l)))
  else if hasPrefL (str "$") l then
    setState stateTag.stLexSubPath
      (pushStack stateTag.stLexFilterExpr (emitL lexemeType.lexemeRoot (advance 1 l)))
  else if hasPrefL (str "&&") l then
    errorfL (str "missing first operand for binary operator &&") l
  else if hasPrefL (str "||") l then
    errorfL (str "missing first operand for binary operator ||") l
  else if hasPrefL (str "==") l then
    errorfL (str "missing first operand for binary operator ==") l
  else if hasPrefL (str ">=") l then
    errorfL (str "missing first operand for binary operator >=") l
  else if hasPrefL (str ">") l then
    errorfL (str "missing first operand for binary operator >") l
  else if hasPrefL (str "<=") l then
    errorfL (str "missing first operand for binary operator <=") l
  else if hasPrefL (str "<") l then
    errorfL (str "missing first operand for binary operator <") l
  else popState l

/-- `lexFilterExprInitial` (part_005 lines 467-534): strip whitespace, then
dispatch. -/
def lexFilterExprInitialF (l0 : Lexer) : Lexer :=
  lexFilterExprInitialDispatch (stripWS l0)

/-- The shared shape of the four ordering-operator cases of
`lexFilterExpr` (part_005 lines 591-651): reject a string-literal context
before the operator, emit the operator, strip whitespace, reject a
following string literal, else expect a term. -/
def orderingOpCase (l : Lexer) (opText : List Char) (opLen : Nat)
    (opType : lexemeType) : Lexer :=
  if hasPref [squote] (contextL l) then
    errorfL (str "strings cannot be compared using " ++ opText) l
  else if hasPrefL [squote] (stripWS (emitL opType (advance opLen l))) then
    errorfL (str "strings cannot be compared using " ++ opText)
      (stripWS (emitL opType (advance opLen l)))
  else setState stateTag.stLexFilterTerm
    (pushStack stateTag.stLexFilterExpr (stripWS (emitL opType (advance opLen l))))

/-- The dispatch of `lexFilterExpr` (part_005 lines 536-668) on the
whitespace-stripped lexer. -/
def lexFilterExprDispatch (l : Lexer) : Lexer :=
  if (restOf l).isEmpty then errorfL (str "missing end of filter") l
  else if hasPrefL (str ")]") l then popState l
  else if hasPrefL (str "(") l then
    setState stateTag.stLexFilterExprInitial
      (pushStack stateTag.stLexFilterExpr
        (emitL lexemeType.lexemeFilterOpenBracket (advance 1 l)))
  else if hasPrefL (str ")") l then
    popState (emitL lexemeType.lexemeFilterCloseBracket (advance 1 l))
  else if hasPrefL (str "@") l then
    setState stateTag.stLexSubPath
      (pushStack stateTag.stLexFilterExpr (emitL lexemeType.lexemeFilterAt (advance 1 l)))
  else if hasPrefL (str "&&") l then
    setState stateTag.stLexFilterExprInitial
      (stripWS (emitL lexemeType.lexemeFilterAnd (advance 2 l)))
  else if hasPrefL (str "||") l then
    setState stateTag.stLexFilterExprInitial
      (stripWS (emitL lexemeType.lexemeFilterOr (advance 2 l)))
  else if hasPrefL (str "==") l then
    setState stateTag.stLexFilterTerm
      (pushStack stateTag.stLexFilterExpr
        (emitL lexemeType.lexemeFilterEquality (advance 2 l)))
  else if hasPrefL (str "!=") l then
    setState stateTag.stLexFilterTerm
      (pushStack stateTag.stLexFilterExpr
        (emitL lexemeType.lexemeFilterInequality (advance 2 l)))
  else if hasPrefL (str ">=") l then
    orderingOpCase l (str ">=") 2 lexemeType.lexemeFilterGreaterThanOrEqual
  else if hasPrefL (str ">") l then
    orderingOpCase l (str ">") 1 lexemeType.lexemeFilterGreaterThan
  else if hasPrefL (str "<=") l then
    orderingOpCase l (str "<=") 2 lexemeType.lexemeFilterLessThanOrEqual
  else if hasPrefL (str "<") l then
    orderingOpCase l (str "<") 1 lexemeType.lexemeFilterLessThan
  else if hasPrefL (str "=~") l then
    if l.lastEmittedLexemeType = lexemeType.lexemeFilterStringLiteral ∨
        l.lastEmittedLexemeType = lexemeType.lexemeFilterIntegerLiteral ∨
        l.lastEmittedLexemeType = lexemeType.lexemeFilterFloatLiteral then
      errorfL (str "literal cannot be matched using =~ starting at " ++
        quoteGo (nextCharL l)) l
    else
      lexRegularExpressionLiteral
        (stripWS (emitL lexemeType.lexemeFilterMatchesRegularExpression (advance 2 l)))
        stateTag.stLexFilterExpr
  else errorfL (str "invalid filter syntax starting at " ++ quoteGo (nextCharL l)) l

/-- `lexFilterExpr` (part_005 lines 536-668): strip whitespace, then
dispatch. -/
def lexFilterExprF (l0 : Lexer) : Lexer :=
  lexFilterExprDispatch (stripWS l0)

/-- The dispatch of `lexFilterTerm` (part_005 lines 670-698) on the
whitespace-stripped lexer.  This snapshot has no boolean or null literal
cases. -/
def lexFilterTermDispatch (l : Lexer) : Lexer :=
  if hasPrefL (str "@") l then
    setState stateTag.stLexSubPath (emitL lexemeType.lexemeFilterAt (advance 1 l))
  else if hasPrefL (str "$") l then
    setState stateTag.stLexSubPath (emitL lexemeType.lexemeRoot (advance 1 l))
  else
    match lexNumericLiteral l with
    | some l' => l'
    | none =>
      match lexStringLiteral l stateTag.stLexFilterExpr with
      | some l' => l'
      | none =>
        if hasPrefL (str ")]") l ∨ hasPrefL (str ")") l then
          errorfL (str "missing filter term") l
        else errorfL (str "invalid filter term") l

/-- `lexFilterTerm` (part_005 lines 670-698): strip whitespace, then
dispatch. -/
def lexFilterTermF (l0 : Lexer) : Lexer :=
  lexFilterTermDispatch (stripWS l0)

/-- `lexFilterEnd` (part_005 lines 700-712). -/
def lexFilterEndF (l : Lexer) : Lexer :=
  if hasPrefL (str ")]") l then
    if l.lastEmittedLexemeType = lexemeType.lexemeFilterBegin then
      errorfL (str "missing filter") l
    else setState stateTag.stLexSubPath (emitL lexemeType.lexemeFilterEnd (advance 2 l))
  else errorfL (str "invalid filter syntax: missing )]") l

/-- One transition of the lexer state machine: run the current state
function. -/
def stepState (t : stateTag) (l : Lexer) : Lexer :=
  match t with
  | stateTag.stLexPath => lexPathF l
  | stateTag.stLexRoot => lexRootF l
  | stateTag.stLexSubPath => lexSubPathF l
  | stateTag.stLexOptionalArrayIndex => lexOptionalArrayIndexF l
  | stateTag.stLexFilterExprInitial => lexFilterExprInitialF l
  | stateTag.stLexFilterExpr => lexFilterExprF l
  | stateTag.stLexFilterTerm => lexFilterTermF l
  | stateTag.stLexFilterEnd => lexFilterEndF l

/-- The lexeme `nextLexeme` fabricates once the machine has halted
(part_005 lines 176-180). -/
def eofLexeme : lexeme := ⟨lexemeType.lexemeEOF, []⟩

/-- `nextLexeme` (part_005 lines 170-184): drain the queue; once the state
is nil fabricate EOF lexemes; otherwise advance the machine.  The fuel
bounds only the number of machine steps taken without an emission;
exhaustion is `none` (the Go loop simply keeps stepping). -/
def nextLexeme : Nat → Lexer → Option (lexeme × Lexer)
  | fuel, l =>
    match l.items with
    | lx :: rest => some (lx, { l with items := rest })
    | [] =>
      match l.state with
      | none => some (eofLexeme, l)
      | some t =>
        match fuel with
        | 0 => none
        | fuel' + 1 => nextLexeme fuel' (stepState t l)

/-- All lexemes up to and including the first EOF (a test harness view of
the stream; `none`-returning fuel exhaustion truncates the list). -/
def lexAll : Nat → Lexer → List lexeme
  | 0, _ => []
  | fuel + 1, l =>
    match nextLexeme fuel l with
    | none => []
    | some (lx, l') =>
      if lx.typ = lexemeType.lexemeEOF then [lx] else lx :: lexAll fuel l'

/-! ### YAML node model (the `gopkg.in/yaml.v3` interface consumed by the
engine: kind, short tag, scalar value, ordered content).  The Go zero
`Kind` value 0, tested by `identity`, is its own constructor. -/

/-- Node kinds; `zero` is the zero value of `yaml.Kind`. -/
inductive yamlKind where
  | zero
  | document
  | sequence
  | mapping
  | scalar
  | alias
  deriving DecidableEq, BEq, Repr

/-- A YAML node: kind, canonical short tag, scalar value text, and ordered
content (for mappings, alternating key/value children). -/
inductive YamlNode where
  | mk (kind : yamlKind) (tag : List Char) (value : List Char)
      (content : List YamlNode)

/-- Kind of a node. -/
def YamlNode.kind : YamlNode → yamlKind
  | YamlNode.mk k _ _ _ => k

/-- Short tag of a node. -/
def YamlNode.tag : YamlNode → List Char
  | YamlNode.mk _ t _ _ => t

/-- Scalar value text of a node. -/
def YamlNode.value : YamlNode → List Char
  | YamlNode.mk _ _ v _ => v

/-- Content list of a node. -/
def YamlNode.content : YamlNode → List YamlNode
  | YamlNode.mk _ _ _ c => c

/-! ### Path compiler and evaluator: `pkg/yamlpath/path.go`

A compiled matcher is a function from (node, root) to an optional node
list: `none` models a Go panic during evaluation, and the `yit.Iterator`
composition of the source is modelled by list concatenation (the source
materialises the same lists via `FromIterators`/`ToArray`).  The filter
expression compiler `newFilterNode` invoked by `filterThen` (path.go line
211) is not part of this source snapshot, so `newPath` is parametrised by
the predicate builder `mkFilter` it composes with `newFilter`; no theorem
below depends on a particular builder. -/

/-- The type of compiled matchers (`Path.f`, path.go lines 18-20), with
`none` for an evaluation panic. -/
def PathFn : Type := YamlNode → YamlNode → Option (List YamlNode)

/-- `identity` (path.go lines 129-134). -/
def identity : PathFn := fun node _root =>
  if node.kind = yamlKind.zero then some [] else some [node]

/-- `empty` (path.go lines 136-138). -/
def empty : PathFn := fun _node _root => some []

/-- `compose` (path.go lines 140-146): apply the rest of the path to every
node of the iterator and concatenate. -/
def composeF (ns : List YamlNode) (p : PathFn) (root : YamlNode) :
    Option (List YamlNode) :=
  (ns.mapM (fun a => p a root)).map List.flatten

/-- The child lookup loop of `childThen` (path.go lines 168-172): find the
first content entry whose value equals the name and return the following
entry.  `foundLast` is the case in which the match is the final entry, so
the Go `node.Content[i+1]` would panic. -/
inductive childLookupResult where
  | found (v : YamlNode)
  | foundLast
  | notFound

/-- Scan of the content list for `childThen`. -/
def childLookup (childName : List Char) : List YamlNode → childLookupResult
  | [] => childLookupResult.notFound
  | n :: rest =>
    if n.value = childName then
      match rest with
      | v :: _ => childLookupResult.found v
      | [] => childLookupResult.foundLast
    else childLookup childName rest

/-- `allChildrenThen` (path.go lines 177-188): on a mapping, feed every
content node (keys and values alike, as the source does) to the rest of
the path. -/
def allChildrenThen (p : PathFn) : PathFn := fun node root =>
  if node.kind ≠ yamlKind.mapping then empty node root
  else composeF node.content p root

/-- `childThen` (path.go lines 160-175). -/
def childThen (childName : List Char) (p : PathFn) : PathFn :=
  if childName = str "*" then allChildrenThen p
  else fun node root =>
    if node.kind ≠ yamlKind.mapping then empty node root
    else
      match childLookup childName node.content with
      | childLookupResult.found v => composeF [v] p root
      | childLookupResult.foundLast => none
      | childLookupResult.notFound => empty node root

/-- The `strings.SplitN(childNames, ".", 2)` of `childrenThen` (path.go
line 153): split at the first dot, if any. -/
def splitFirstDot : List Char → Option (List Char × List Char)
  | [] => none
  | c :: rest =>
    if c = '.' then some ([], rest)
    else
      match splitFirstDot rest with
      | none => none
      | some (a, b) => some (c :: a, b)

/-- `childrenThen` (path.go lines 152-158): this snapshot splits the
bracket-child body on dots (not on commas), recursing on the remainder.
The fuel is the recursion depth (the number of dots plus one suffices; the
fallback at zero is unreachable at the call sites of this development). -/
def childrenThen : Nat → List Char → PathFn → PathFn
  | 0, childNames, p => childThen childNames p
  | fuel + 1, childNames, p =>
    match splitFirstDot childNames with
    | none => childThen childNames p
    | some (c0, c1) => childThen c0 (childrenThen fuel c1 p)

/-- Element access `node.Content[s]` of `arraySubscriptThen` (path.go line
203): a Go panic for out-of-range or negative indices. -/
def contentAt (content : List YamlNode) (s : Int) : Option YamlNode :=
  if s < 0 then none else content.get? s.toNat

/-- `arraySubscriptThen` (path.go lines 190-208): non-sequences yield
nothing; a `slice` error panics (line 198), as does out-of-range
indexing. -/
def arraySubscriptThen (subscript : List Char) (p : PathFn) : PathFn :=
  fun node root =>
    if node.kind ≠ yamlKind.sequence then empty node root
    else
      match slice subscript (node.content.length : Int) with
      | Except.error _ => none
      | Except.ok idxs =>
        match idxs.mapM (contentAt node.content) with
        | none => none
        | some selected => composeF selected p root

/-- `filterThen` (path.go lines 210-225) given the predicate built by
`newFilter(newFilterNode(filterLexemes))`: a non-sequence node panics with
"not implemented" (line 214); on a sequence the predicate selects
children. -/
def filterThen (filt : YamlNode → YamlNode → Bool) (p : PathFn) : PathFn :=
  fun node root =>
    if node.kind ≠ yamlKind.sequence then none
    else composeF (node.content.filter (fun c => filt c root)) p root

/-- `TrimPrefix` then `TrimSuffix` as used on lexeme values in `newPath`. -/
def trimAffixes (pre suf s : List Char) : List Char :=
  let s1 := if hasPref pre s then s.drop pre.length else s
  if hasPref suf.reverse s1.reverse then s1.take (s1.length - suf.length) else s1

mutual

/-- `yit.RecurseNodes`: pre-order traversal of a node and all its
descendants (used by the RecursiveDescent matcher). -/
def recurseNodes (n : YamlNode) : List YamlNode :=
  n :: recurseList n.content
termination_by sizeOf n
decreasing_by
  cases n
  simp [YamlNode.content]

/-- Pre-order traversal of a list of nodes. -/
def recurseList : List YamlNode → List YamlNode
  | [] => []
  | x :: xs => recurseNodes x ++ recurseList xs
termination_by l => sizeOf l
decreasing_by
  all_goals simp
  all_goals omega

end

/-- The filter-collection loop of `newPath` (path.go lines 99-117):
consume lexemes, tracking nesting, until the matching FilterEnd; an EOF
first is "missing end of filter".  An error lexeme has no case in the Go
switch and is collected like any other lexeme.  Fuel exhaustion is a
distinguished error. -/
def collectFilter : Nat → Nat → List lexeme → Lexer →
    Except (List Char) (List lexeme × Lexer)
  | 0, _, _, _ => Except.error (str "fuel exhausted")
  | fuel + 1, level, acc, l =>
    match nextLexeme fuel l with
    | none => Except.error (str "fuel exhausted")
    | some (lx, l') =>
      match lx.typ with
      | lexemeType.lexemeFilterBegin =>
        collectFilter fuel (level + 1) (acc ++ [lx]) l'
      | lexemeType.lexemeFilterEnd =>
        if level = 1 then Except.ok (acc, l')
        else collectFilter fuel (level - 1) (acc ++ [lx]) l'
      | lexemeType.lexemeEOF => Except.error (str "missing end of filter")
      | _ => collectFilter fuel level (acc ++ [lx]) l'

/-- The Root matcher closure (path.go lines 52-57): a Document is unwrapped
to its first content child (`Content[0]` panics on an empty document). -/
def rootThen (p : PathFn) : PathFn := fun node root =>
  match (if node.kind = yamlKind.document then node.content.head? else some node) with
  | none => none
  | some n2 => composeF [n2] p root

/-- The RecursiveDescent `*` matcher closure (path.go lines 66-68). -/
def recurseAllThen (p : PathFn) : PathFn := fun node root =>
  composeF (recurseNodes node) p root

/-- The RecursiveDescent named-child matcher closure (path.go lines 70-72). -/
def recurseChildThen (childName : List Char) (p : PathFn) : PathFn := fun node root =>
  composeF (recurseNodes node) (childThen childName p) root

/-- `newPath` (path.go lines 36-127), parametrised by the filter predicate
builder (see the section comment) and fuelled for the lexer-driving
recursion.  Fuel exhaustion is a distinguished error, never a successful
compile. -/
def newPath (mkFilter : List lexeme → YamlNode → YamlNode → Bool) :
    Nat → Lexer → Except (List Char) PathFn
  | 0, _ => Except.error (str "fuel exhausted")
  | fuel + 1, l =>
    match nextLexeme fuel l with
    | none => Except.error (str "fuel exhausted")
    | some (lx, l') =>
      match lx.typ with
      | lexemeType.lexemeError => Except.error lx.val
      | lexemeType.lexemeIdentity => Except.ok identity
      | lexemeType.lexemeEOF => Except.ok identity
      | lexemeType.lexemeRoot =>
        match newPath mkFilter fuel l' with
        | Except.error e => Except.error e
        | Except.ok subPath => Except.ok (rootThen subPath)
      | lexemeType.lexemeRecursiveDescent =>
        match newPath mkFilter fuel l' with
        | Except.error e => Except.error e
        | Except.ok subPath =>
          let childName := trimAffixes (str "..") [] lx.val
          if childName = str "*" then Except.ok (recurseAllThen subPath)
          else Except.ok (recurseChildThen childName subPath)
      | lexemeType.lexemeDotChild =>
        match newPath mkFilter fuel l' with
        | Except.error e => Except.error e
        | Except.ok subPath => Except.ok (childThen (trimAffixes (str ".") [] lx.val) subPath)
      | lexemeType.lexemeBracketChild =>
        match newPath mkFilter fuel l' with
        | Except.error e => Except.error e
        | Except.ok subPath =>
          let childNames := trimAffixes ('[' :: [squote]) (squote :: [']']) lx.val
          Except.ok (childrenThen (childNames.length + 1) childNames subPath)
      | lexemeType.lexemeArraySubscript =>
        match newPath mkFilter fuel l' with
        | Except.error e => Except.error e
        | Except.ok subPath =>
          Except.ok (arraySubscriptThen (trimAffixes (str "[") (str "]") lx.val) subPath)
      | lexemeType.lexemeFilterBegin =>
        match collectFilter fuel 1 [] l' with
        | Except.error e => Except.error e
        | Except.ok (filterLexemes, l2) =>
          match newPath mkFilter fuel l2 with
          | Except.error e => Except.error e
          | Except.ok subPath => Except.ok (filterThen (mkFilter filterLexemes) subPath)
      | _ => Except.error (str "invalid path syntax")

/-- `Find` (path.go lines 23-29): run the compiled matcher with the
queried node as both current node and root. -/
def findPath (p : PathFn) (node : YamlNode) : Option (List YamlNode) := p node node

/-! ### Concrete documents and claim theorems for the evaluator -/

/-- A scalar node with the given tag and value. -/
def mkScalar (tag value : List Char) : YamlNode := YamlNode.mk yamlKind.scalar tag value []

/-- A string-tagged scalar node. -/
def strScalar (value : List Char) : YamlNode := mkScalar (str "!!str") value

/-- A filter predicate builder for paths that contain no filter, or whose
filters are never evaluated; every theorem that does not quantify over the
missing filter compiler instantiates it here. -/
def constFalseFilter : List lexeme → YamlNode → YamlNode → Bool := fun _ _ _ => false

/-- The document `{a: [w, x, y, z]}`. -/
def docSeq4 : YamlNode :=
  YamlNode.mk yamlKind.document [] []
    [YamlNode.mk yamlKind.mapping (str "!!map") []
      [strScalar (str "a"),
        YamlNode.mk yamlKind.sequence (str "!!seq") []
          [strScalar (str "w"), strScalar (str "x"), strScalar (str "y"),
            strScalar (str "z")]]]

/-- The document `{a: {b: c}}`. -/
def docNested : YamlNode :=
  YamlNode.mk yamlKind.document [] []
    [YamlNode.mk yamlKind.mapping (str "!!map") []
      [strScalar (str "a"),
        YamlNode.mk yamlKind.mapping (str "!!map") []
          [strScalar (str "b"), strScalar (str "c")]]]

/-- The document `{a: 1, b: 2, c: 3}`. -/
def docUnion : YamlNode :=
  YamlNode.mk yamlKind.document [] []
    [YamlNode.mk yamlKind.mapping (str "!!map") []
      [strScalar (str "a"), mkScalar (str "!!int") (str "1"),
        strScalar (str "b"), mkScalar (str "!!int") (str "2"),
        strScalar (str "c"), mkScalar (str "!!int") (str "3")]]

/-- The document whose root content is the single scalar `x`. -/
def docScalar : YamlNode := YamlNode.mk yamlKind.document [] [] [strScalar (str "x")]

/-- The path text `$['a','b']`, spelled out character by character. -/
def unionPathText : List Char :=
  '$' :: '[' :: squote :: 'a' :: squote :: ',' :: squote :: 'b' :: squote :: ']' :: []

/-- C1.  Evaluation of a successfully compiled path can panic, contrary to
the claim.  Two witnesses, quantified over the missing filter compiler:
the path `$.a[4]` compiles and, applied to the document `{a: [w,x,y,z]}`,
panics (the snapshot's `slice` resolves the subscript to the out-of-range
index 4 and `arraySubscriptThen` indexes `Content[4]`), and the path
`$.a[?(@.b==1)]` compiles and, applied to `{a: {b: c}}`, panics
(`filterThen` hits `panic("not implemented")` on the non-sequence node).
The repository's own tests (`TestSlicer` "overflowed index",
`TestFind` "map filter") expect the non-panicking behaviour the claim
describes. -/
theorem c1_evaluation_panics (mkFilter : List lexeme → YamlNode → YamlNode → Bool) :
    (newPath mkFilter 99 (lexInit (str "$.a[4]"))).map
      (fun p => findPath p docSeq4) = Except.ok none ∧
    (newPath mkFilter 99 (lexInit (str "$.a[?(@.b==1)]"))).map
      (fun p => findPath p docNested) = Except.ok none :=
  ⟨rfl, rfl⟩

/-- C5.  The bracket-child union `$['a','b']` applied to `{a: 1, b: 2, c: 3}`
returns the empty list, not `[1, 2]` as the claim states: this snapshot's
`childrenThen` splits the bracket body on dots, so the whole text
`a','b` is looked up as a single (absent) mapping key.  The final
conjunct records the document's key/value layout, from which the claim
expects the values of `a` and `b`.  The current bracket-child splitter
(`bracketChildNames`) exists in the repository only through its test
(`TestBracketChildNames`); the committed test "union with keys" expects
`[value, entry]` for this shape of path. -/
theorem c5_bracket_union_returns_empty
    (mkFilter : List lexeme → YamlNode → YamlNode → Bool) :
    (newPath mkFilter 99 (lexInit unionPathText)).map
      (fun p => findPath p docUnion) = Except.ok (some []) ∧
    docUnion.content.map (fun n => n.content.map YamlNode.value) =
      [[str "a", str "1", str "b", str "2", str "c", str "3"]] :=
  ⟨rfl, rfl⟩

/-- C6 (counterexample).  The compiled empty path applied to a document
returns the document node itself, not the document's root content child:
on the document whose unique content child is the scalar `x`, the result
is the singleton holding the document node (kind Document), while the
content child has kind Scalar, and the two kinds differ. -/
theorem c6_identity_counterexample :
    (newPath constFalseFilter 99 (lexInit [])).map
      (fun p => findPath p docScalar) = Except.ok (some [docScalar]) ∧
    docScalar.kind = yamlKind.document ∧
    docScalar.content.map YamlNode.kind = [yamlKind.scalar] ∧
    (yamlKind.document == yamlKind.scalar) = false :=
  ⟨rfl, rfl, rfl, rfl⟩

/-- C6 (amended).  For every document node `D` with unique content child
`c` (of nonzero kind), the compiled expression `$` returns the
single-element list holding `c`, while the compiled empty expression
returns the single-element list holding `D` itself (the `identity`
matcher yields its input unchanged; only the Root matcher unwraps
documents). -/
theorem c6_identity_amended (mkFilter : List lexeme → YamlNode → YamlNode → Bool)
    (D c : YamlNode) (h1 : D.kind = yamlKind.document) (h2 : D.content = [c])
    (h3 : c.kind ≠ yamlKind.zero) :
    (newPath mkFilter 99 (lexInit (str "$"))).map
      (fun p => findPath p D) = Except.ok (some [c]) ∧
    (newPath mkFilter 99 (lexInit [])).map
      (fun p => findPath p D) = Except.ok (some [D]) := by
  have hD : D.kind ≠ yamlKind.zero := by
    rw [h1]
    exact fun hcontra => by cases hcontra
  constructor
  · have hc : newPath mkFilter 99 (lexInit (str "$")) = Except.ok (rootThen identity) := rfl
    rw [hc]
    show Except.ok (findPath (rootThen identity) D) = Except.ok (some [c])
    unfold findPath rootThen
    rw [h1, h2]
    simp only [composeF, identity]
    refine congrArg Except.ok ?_
    show (List.mapM (fun a => if a.kind = yamlKind.zero then some [] else some [a]) [c]).map
      List.flatten = some [c]
    rw [List.mapM_cons, List.mapM_nil]
    simp [h3]
  · have hc : newPath mkFilter 99 (lexInit []) = Except.ok identity := rfl
    rw [hc]
    show Except.ok (findPath identity D) = Except.ok (some [D])
    unfold findPath identity
    simp [hD]

/-- C6 (witness).  The amended identity law applied to the concrete
document whose content child is the scalar `x`. -/
theorem c6_identity_witness :
    docScalar.kind = yamlKind.document ∧ docScalar.content = [strScalar (str "x")] ∧
    ((newPath constFalseFilter 99 (lexInit (str "$"))).map
      (fun p => findPath p docScalar) = Except.ok (some [strScalar (str "x")]) ∧
    (newPath constFalseFilter 99 (lexInit [])).map
      (fun p => findPath p docScalar) = Except.ok (some [docScalar])) :=
  ⟨rfl, rfl, c6_identity_amended constFalseFilter docScalar (strScalar (str "x"))
    rfl rfl (by decide)⟩

/-- C7.  The snapshot's filter sub-language has no boolean or null
literals at all (`lexemeType` has no such cases and `lexFilterTerm`
recognises only `@`, `$`, numbers and strings), so the claim's example
`$[?(@==null)]` does not compile: the sub-lexer, sent to `lexSubPath`
after `@`, rejects `==null)]` with an "invalid path syntax" error lexeme,
and the path compiler, which is inside its filter-collection loop at that
point, fails with "missing end of filter".  The committed test "relaxed
spelling of true, false, and null literals" expects this path to compile
and match the null-tagged nodes. -/
theorem c7_null_literal_rejected
    (mkFilter : List lexeme → YamlNode → YamlNode → Bool) :
    newPath mkFilter 99 (lexInit (str "$[?(@==null)]")) =
      Except.error (str "missing end of filter") ∧
    (lexAll 99 (lexInit (str "$[?(@==null)]"))).any
      (fun lx => lx.typ == lexemeType.lexemeError &&
        hasPref (str "invalid path syntax") lx.val) = true :=
  ⟨rfl, rfl⟩

/-- C8.  Union subscripts diverge from the claim twice in this snapshot:
the slice resolver accepts a `*` member inside a union — `*,1` against
length 3 resolves to `[0, 1, 2, 1]` with no "wildcard cannot be used in
union" error (the committed test `TestSlicer` "union with wildcard and
index" expects that error) — and a comma-separated subscript is not even
lexed: `validateArrayIndex` splits only on colons, so `$.a[0,2]` fails
with a non-integer-value error instead of compiling. -/
theorem c8_union_wildcard_and_lexing :
    slice (str "*,1") 3 = Except.ok [0, 1, 2, 1] ∧
    lexAll 99 (lexInit (str "$.a[0,2]")) =
      [⟨lexemeType.lexemeRoot, str "$"⟩, ⟨lexemeType.lexemeDotChild, str ".a"⟩,
        ⟨lexemeType.lexemeError,
          str "invalid array index containing non-integer value: [0,2] before position 8"⟩,
        ⟨lexemeType.lexemeEOF, []⟩] :=
  ⟨rfl, rfl⟩

/-! ### Lexer halting invariant (claims C9 and C10)

The key queue invariant: an error or EOF lexeme only ever sits at the very
end of the queue, and only once the machine has halted.  `lex` starts with
an empty queue, every state function preserves the invariant (it runs only
when the queue is empty, because `nextLexeme` drains the queue before
stepping), and `nextLexeme` preserves it. -/

/-- A lexeme kind that terminates the stream. -/
def isTerminalLexeme (t : lexemeType) : Bool :=
  t == lexemeType.lexemeError || t == lexemeType.lexemeEOF

/-- Queue well-formedness with respect to the machine state. -/
def itemsOk : List lexeme → Option stateTag → Bool
  | [], _ => true
  | [e], st => !isTerminalLexeme e.typ || st == none
  | e :: rest, st => !isTerminalLexeme e.typ && itemsOk rest st

/-- A sane lexer: the queue invariant holds. -/
def Sane (l : Lexer) : Prop := itemsOk l.items l.state = true

lemma advance_items (n : Nat) (l : Lexer) : (advance n l).items = l.items := rfl

lemma advance_state (n : Nat) (l : Lexer) : (advance n l).state = l.state := rfl

lemma advance_stack (n : Nat) (l : Lexer) : (advance n l).stack = l.stack := rfl

lemma stripWS_items (l : Lexer) : (stripWS l).items = l.items := rfl

lemma stripWS_state (l : Lexer) : (stripWS l).state = l.state := rfl

lemma stripWS_stack (l : Lexer) : (stripWS l).stack = l.stack := rfl

lemma emitL_items (ty : lexemeType) (l : Lexer) :
    (emitL ty l).items = l.items ++ [⟨ty, valueL l⟩] := rfl

lemma emitL_state (ty : lexemeType) (l : Lexer) : (emitL ty l).state = l.state := rfl

lemma emitL_stack (ty : lexemeType) (l : Lexer) : (emitL ty l).stack = l.stack := rfl

lemma emitSyntheticL_items (ty : lexemeType) (v : List Char) (l : Lexer) :
    (emitSyntheticL ty v l).items = l.items ++ [⟨ty, v⟩] := rfl

lemma emitSyntheticL_state (ty : lexemeType) (v : List Char) (l : Lexer) :
    (emitSyntheticL ty v l).state = l.state := rfl

lemma setState_items (t : stateTag) (l : Lexer) : (setState t l).items = l.items := rfl

lemma setState_state (t : stateTag) (l : Lexer) : (setState t l).state = some t := rfl

lemma pushStack_items (t : stateTag) (l : Lexer) : (pushStack t l).items = l.items := rfl

lemma pushStack_state (t : stateTag) (l : Lexer) : (pushStack t l).state = l.state := rfl

lemma errorfL_items (msg : List Char) (l : Lexer) :
    (errorfL msg l).items = l.items ++ [⟨lexemeType.lexemeError,
      msg ++ str " at position " ++ natDigits l.pos ++ str ", following " ++
        quoteGo (contextL l)⟩] := rfl

lemma errorfL_state (msg : List Char) (l : Lexer) : (errorfL msg l).state = none := rfl

lemma rawErrorfL_items (msg : List Char) (l : Lexer) :
    (rawErrorfL msg l).items = l.items ++ [⟨lexemeType.lexemeError, msg⟩] := rfl

lemma rawErrorfL_state (msg : List Char) (l : Lexer) : (rawErrorfL msg l).state = none := rfl

/-- No error or EOF lexeme anywhere in the queue. -/
def noTerminalItems (items : List lexeme) : Bool :=
  items.all (fun e => !isTerminalLexeme e.typ)

lemma itemsOk_of_noTerminal (items : List lexeme) (st : Option stateTag)
    (h : noTerminalItems items = true) : itemsOk items st = true := by
  induction items with
  | nil => rfl
  | cons e rest ih =>
    simp only [noTerminalItems, List.all_cons, Bool.and_eq_true] at h
    rcases rest with _ | ⟨e2, rest2⟩
    · simp [itemsOk, h.1]
    · show (!isTerminalLexeme e.typ && itemsOk (e2 :: rest2) st) = true
      rw [Bool.and_eq_true]
      exact ⟨h.1, ih (by simp [noTerminalItems, h.2])⟩

lemma itemsOk_append_terminal (items : List lexeme) (e : lexeme)
    (h : noTerminalItems items = true) : itemsOk (items ++ [e]) none = true := by
  induction items with
  | nil => simp [itemsOk]
  | cons e2 rest ih =>
    simp only [noTerminalItems, List.all_cons, Bool.and_eq_true] at h
    have hrest := ih (by simp [noTerminalItems, h.2])
    rcases hr : rest ++ [e] with _ | ⟨e3, rest3⟩
    · cases rest <;> simp at hr
    · rw [List.cons_append, hr]
      show (!isTerminalLexeme e2.typ && itemsOk (e3 :: rest3) none) = true
      rw [← hr, Bool.and_eq_true]
      exact ⟨h.1, hrest⟩

lemma sane_errorfL (msg : List Char) (l : Lexer)
    (h : noTerminalItems l.items = true) : Sane (errorfL msg l) := by
  rw [Sane, errorfL_items, errorfL_state]
  exact itemsOk_append_terminal _ _ h

lemma sane_rawErrorfL (msg : List Char) (l : Lexer)
    (h : noTerminalItems l.items = true) : Sane (rawErrorfL msg l) := by
  rw [Sane, rawErrorfL_items, rawErrorfL_state]
  exact itemsOk_append_terminal _ _ h

lemma sane_popState (l : Lexer) (h : noTerminalItems l.items = true) :
    Sane (popState l) := by
  unfold popState
  rcases l.stack with _ | ⟨t, rest⟩
  · exact sane_errorfL _ _ h
  · exact itemsOk_of_noTerminal _ _ h

lemma sane_setState (t : stateTag) (l : Lexer) (h : noTerminalItems l.items = true) :
    Sane (setState t l) := by
  rw [Sane, setState_items, setState_state]
  exact itemsOk_of_noTerminal _ _ h

lemma noTerminal_append (items : List lexeme) (e : lexeme)
    (h : noTerminalItems items = true) (he : isTerminalLexeme e.typ = false) :
    noTerminalItems (items ++ [e]) = true := by
  simp [noTerminalItems] at h ⊢
  exact ⟨fun x hx => h x hx, by simp [he]⟩

lemma noTerminal_emitL (ty : lexemeType) (l : Lexer)
    (h : noTerminalItems l.items = true) (hty : isTerminalLexeme ty = false) :
    noTerminalItems (emitL ty l).items = true := by
  rw [emitL_items]
  exact noTerminal_append _ _ h hty

/-- Emitting a non-terminal lexeme and entering a state keeps the queue
sane. -/
lemma sane_setState_emit (t : stateTag) (ty : lexemeType) (l : Lexer)
    (h : noTerminalItems l.items = true) (hty : isTerminalLexeme ty = false) :
    Sane (setState t (emitL ty l)) :=
  sane_setState _ _ (noTerminal_emitL _ _ h hty)

/-- The Identity-then-EOF halt shape shared by `lexPath` and `lexSubPath`. -/
lemma sane_identity_eof (l : Lexer) (h : noTerminalItems l.items = true) :
    Sane { emitL lexemeType.lexemeEOF (emitL lexemeType.lexemeIdentity l) with
      state := none } := by
  have h2 := noTerminal_emitL lexemeType.lexemeIdentity l h rfl
  show itemsOk ((emitL lexemeType.lexemeIdentity l).items ++ [_]) none = true
  exact itemsOk_append_terminal _ _ h2

lemma sane_lexPathF (l : Lexer) (h : noTerminalItems l.items = true) :
    Sane (lexPathF l) := by
  unfold lexPathF
  split
  · exact sane_identity_eof _ h
  · split
    · exact sane_setState _ _ h
    · exact sane_setState _ _ (by
        rw [emitSyntheticL_items]
        exact noTerminal_append _ _ h rfl)

lemma sane_lexRootF (l : Lexer) (h : noTerminalItems l.items = true) :
    Sane (lexRootF l) := by
  unfold lexRootF
  exact sane_setState_emit _ _ _ (by rw [advance_items]; exact h) rfl

lemma sane_lexSubPathF (l : Lexer) (h : noTerminalItems l.items = true) :
    Sane (lexSubPathF l) := by
  unfold lexSubPathF
  dsimp only
  repeat' split
  all_goals first
    | exact sane_popState _ h
    | exact sane_errorfL _ _ h
    | exact sane_rawErrorfL _ _ h
    | exact sane_identity_eof _ h
    | exact sane_setState_emit _ _ _ h (by rfl)

lemma sane_setState_stripWS_emit (t : stateTag) (ty : lexemeType) (l : Lexer)
    (h : noTerminalItems l.items = true) (hty : isTerminalLexeme ty = false) :
    Sane (setState t (stripWS (emitL ty l))) :=
  sane_setState _ _ (noTerminal_emitL _ _ h hty)

lemma sane_setState_push_emit (t u : stateTag) (ty : lexemeType) (l : Lexer)
    (h : noTerminalItems l.items = true) (hty : isTerminalLexeme ty = false) :
    Sane (setState t (pushStack u (emitL ty l))) :=
  sane_setState _ _ (noTerminal_emitL _ _ h hty)

lemma sane_popState_emit (ty : lexemeType) (l : Lexer)
    (h : noTerminalItems l.items = true) (hty : isTerminalLexeme ty = false) :
    Sane (popState (emitL ty l)) :=
  sane_popState _ (noTerminal_emitL _ _ h hty)

lemma sane_afterIndex (l : Lexer) (h : noTerminalItems l.items = true) :
    Sane (afterIndex l) := by
  unfold afterIndex
  repeat' split
  all_goals first
    | exact sane_popState _ h
    | exact sane_errorfL _ _ h
    | exact sane_setState _ _ h

lemma sane_lexNumericLiteral (l l' : Lexer) (h : noTerminalItems l.items = true)
    (heq : lexNumericLiteral l = some l') : Sane l' := by
  unfold lexNumericLiteral at heq
  dsimp only at heq
  repeat' split at heq
  all_goals cases heq
  all_goals first
    | exact sane_rawErrorfL _ _ h
    | exact sane_setState_emit _ _ _ h (by rfl)

lemma sane_lexStringLiteral (l l' : Lexer) (t : stateTag)
    (h : noTerminalItems l.items = true)
    (heq : lexStringLiteral l t = some l') : Sane l' := by
  unfold lexStringLiteral at heq
  repeat' split at heq
  all_goals cases heq
  all_goals first
    | exact sane_rawErrorfL _ _ h
    | exact sane_setState_emit _ _ _ h (by rfl)

lemma sane_lexRegexBody (l : Lexer) (t : stateTag)
    (h : noTerminalItems l.items = true) : Sane (lexRegexBody l t) := by
  unfold lexRegexBody
  repeat' split
  all_goals first
    | exact sane_rawErrorfL _ _ h
    | exact sane_setState_emit _ _ _ h (by rfl)

lemma sane_lexRegularExpressionLiteral (l : Lexer) (t : stateTag)
    (h : noTerminalItems l.items = true) :
    Sane (lexRegularExpressionLiteral l t) := by
  unfold lexRegularExpressionLiteral
  repeat' split
  all_goals first
    | exact sane_errorfL _ _ h
    | exact sane_lexRegexBody _ _ h

lemma sane_orderingOpCase (l : Lexer) (opText : List Char) (opLen : Nat)
    (opType : lexemeType) (h : noTerminalItems l.items = true)
    (hty : isTerminalLexeme opType = false) :
    Sane (orderingOpCase l opText opLen opType) := by
  unfold orderingOpCase
  repeat' split
  all_goals first
    | exact sane_errorfL _ _ h
    | exact sane_errorfL _ _ (noTerminal_emitL opType (advance opLen l) h hty)
    | exact sane_setState _ _ (noTerminal_emitL opType (advance opLen l) h hty)

lemma validateArrayIndex_cases (l : Lexer) :
    validateArrayIndex l = (true, l) ∨
      ∃ msg, validateArrayIndex l = (false, rawErrorfL msg l) := by
  unfold validateArrayIndex
  dsimp only
  repeat' split
  all_goals first
    | exact Or.inl rfl
    | exact Or.inr ⟨_, rfl⟩

lemma sane_lexOptionalArrayIndexF (l : Lexer) (h : noTerminalItems l.items = true) :
    Sane (lexOptionalArrayIndexF l) := by
  unfold lexOptionalArrayIndexF
  dsimp only
  repeat' split
  all_goals first
    | exact sane_afterIndex _ h
    | exact sane_errorfL _ _ h
    | exact sane_rawErrorfL _ _ h
    | skip
  case _ l3 heq =>
    rcases validateArrayIndex_cases (advance _ (advance 1 l)) with h2 | ⟨msg, h2⟩
    · rw [heq] at h2
      cases h2
    · rw [heq] at h2
      injection h2 with _ h3
      subst h3
      show itemsOk (rawErrorfL msg _).items none = true
      rw [rawErrorfL_items]
      exact itemsOk_append_terminal _ _ h
  case _ l3 heq =>
    rcases validateArrayIndex_cases (advance _ (advance 1 l)) with h2 | ⟨msg, h2⟩
    · rw [heq] at h2
      injection h2 with _ h3
      subst h3
      exact sane_afterIndex _ (noTerminal_emitL _ _ h rfl)
    · rw [heq] at h2
      cases h2

lemma sane_ite (c : Prop) [Decidable c] (a b : Lexer) (ha : Sane a) (hb : Sane b) :
    Sane (if c then a else b) := by
  split
  · exact ha
  · exact hb

lemma sane_lexFilterExprInitialDispatch (l : Lexer)
    (h : noTerminalItems l.items = true) : Sane (lexFilterExprInitialDispatch l) := by
  unfold lexFilterExprInitialDispatch
  cases heqN : lexNumericLiteral l with
  | some l2 => exact sane_lexNumericLiteral l l2 h heqN
  | none =>
    cases heqS : lexStringLiteral l stateTag.stLexFilterExpr with
    | some l2 => exact sane_lexStringLiteral l l2 _ h heqS
    | none =>
      repeat' apply sane_ite
      all_goals first
        | exact sane_popState _ h
        | exact sane_errorfL _ _ h
        | exact sane_popState_emit _ _ h (by rfl)
        | exact sane_setState_emit _ _ _ h (by rfl)

lemma sane_lexFilterExprInitialF (l : Lexer) (h : noTerminalItems l.items = true) :
    Sane (lexFilterExprInitialF l) :=
  sane_lexFilterExprInitialDispatch (stripWS l) h

lemma sane_lexFilterExprDispatch (l : Lexer)
    (h : noTerminalItems l.items = true) : Sane (lexFilterExprDispatch l) := by
  unfold lexFilterExprDispatch
  repeat' apply sane_ite
  all_goals first
    | exact sane_popState _ h
    | exact sane_errorfL _ _ h
    | exact sane_popState_emit _ _ h (by rfl)
    | exact sane_setState_emit _ _ _ h (by rfl)
    | exact sane_setState_stripWS_emit _ _ _ h (by rfl)
    | exact sane_errorfL _ _ (noTerminal_emitL _ _ h (by rfl))
    | exact sane_setState _ _ (noTerminal_emitL _ _ h (by rfl))
    | exact sane_lexRegexBody _ _
        (noTerminal_emitL lexemeType.lexemeFilterMatchesRegularExpression _ h rfl)

lemma sane_lexFilterExprF (l : Lexer) (h : noTerminalItems l.items = true) :
    Sane (lexFilterExprF l) :=
  sane_lexFilterExprDispatch (stripWS l) h

lemma sane_lexFilterTermDispatch (l : Lexer)
    (h : noTerminalItems l.items = true) : Sane (lexFilterTermDispatch l) := by
  unfold lexFilterTermDispatch
  repeat' apply sane_ite
  all_goals try
    cases heqN : lexNumericLiteral l with
    | some l2 => exact sane_lexNumericLiteral l l2 h heqN
    | none =>
      cases heqS : lexStringLiteral l stateTag.stLexFilterExpr with
      | some l2 => exact sane_lexStringLiteral l l2 _ h heqS
      | none =>
        repeat' apply sane_ite
        all_goals exact sane_errorfL _ _ h
  all_goals first
    | exact sane_errorfL _ _ h
    | exact sane_setState_emit _ _ _ h (by rfl)

lemma sane_lexFilterTermF (l : Lexer) (h : noTerminalItems l.items = true) :
    Sane (lexFilterTermF l) :=
  sane_lexFilterTermDispatch (stripWS l) h

lemma sane_lexFilterEndF (l : Lexer) (h : noTerminalItems l.items = true) :
    Sane (lexFilterEndF l) := by
  unfold lexFilterEndF
  repeat' split
  all_goals first
    | exact sane_errorfL _ _ h
    | exact sane_setState_emit _ _ _ h (by rfl)

/-- Every state function preserves the queue invariant. -/
lemma sane_stepState (t : stateTag) (l : Lexer)
    (h : noTerminalItems l.items = true) : Sane (stepState t l) := by
  cases t
  · exact sane_lexPathF _ h
  · exact sane_lexRootF _ h
  · exact sane_lexSubPathF _ h
  · exact sane_lexOptionalArrayIndexF _ h
  · exact sane_lexFilterExprInitialF _ h
  · exact sane_lexFilterExprF _ h
  · exact sane_lexFilterTermF _ h
  · exact sane_lexFilterEndF _ h

lemma itemsOk_tail (e : lexeme) (rest : List lexeme) (st : Option stateTag)
    (h : itemsOk (e :: rest) st = true) : itemsOk rest st = true := by
  cases rest with
  | nil => rfl
  | cons e2 r =>
    have h2 : (!isTerminalLexeme e.typ && itemsOk (e2 :: r) st) = true := h
    simp only [Bool.and_eq_true] at h2
    exact h2.2

/-- A halted lexer with an empty queue yields the fabricated EOF lexeme,
leaving the lexer unchanged (part_005 lines 176-180). -/
lemma nextLexeme_halted (fuel : Nat) (l : Lexer) (h1 : l.state = none)
    (h2 : l.items = []) : nextLexeme fuel l = some (eofLexeme, l) := by
  unfold nextLexeme
  rw [h2, h1]

/-- `nextLexeme` on a sane lexer never blocks, preserves sanity, and
after returning an error or EOF lexeme leaves the machine halted with an
empty queue. -/
lemma nextLexeme_invariant (fuel : Nat) : ∀ (l : Lexer) (lx : lexeme) (l' : Lexer),
    Sane l → nextLexeme fuel l = some (lx, l') →
    Sane l' ∧ (isTerminalLexeme lx.typ = true → l'.state = none ∧ l'.items = []) := by
  induction fuel with
  | zero =>
    intro l lx l' hs heq
    unfold nextLexeme at heq
    cases hi : l.items with
    | cons e rest =>
      rw [hi] at heq
      injection heq with h
      injection h with h1 h2
      subst h1; subst h2
      rw [Sane, hi] at hs
      refine ⟨itemsOk_tail e rest l.state hs, fun ht => ?_⟩
      cases rest with
      | nil =>
        have hor : (!isTerminalLexeme e.typ || (l.state == none)) = true := hs
        rw [ht] at hor
        simp only [Bool.not_true, Bool.false_or] at hor
        cases hst : l.state with
        | none => exact ⟨rfl, rfl⟩
        | some t =>
          rw [hst] at hor
          rw [show ((some t == (none : Option stateTag)) = false) from rfl] at hor
          cases hor
      | cons e2 r =>
        have hand : (!isTerminalLexeme e.typ && itemsOk (e2 :: r) l.state) = true := hs
        rw [ht] at hand
        simp at hand
    | nil =>
      rw [hi] at heq
      cases hst : l.state with
      | none =>
        rw [hst] at heq
        injection heq with h
        injection h with h1 h2
        subst h1; subst h2
        exact ⟨hs, fun _ => ⟨hst, hi⟩⟩
      | some t =>
        rw [hst] at heq
        exact Option.noConfusion heq
  | succ n ih =>
    intro l lx l' hs heq
    unfold nextLexeme at heq
    cases hi : l.items with
    | cons e rest =>
      rw [hi] at heq
      injection heq with h
      injection h with h1 h2
      subst h1; subst h2
      rw [Sane, hi] at hs
      refine ⟨itemsOk_tail e rest l.state hs, fun ht => ?_⟩
      cases rest with
      | nil =>
        have hor : (!isTerminalLexeme e.typ || (l.state == none)) = true := hs
        rw [ht] at hor
        simp only [Bool.not_true, Bool.false_or] at hor
        cases hst : l.state with
        | none => exact ⟨rfl, rfl⟩
        | some t =>
          rw [hst] at hor
          rw [show ((some t == (none : Option stateTag)) = false) from rfl] at hor
          cases hor
      | cons e2 r =>
        have hand : (!isTerminalLexeme e.typ && itemsOk (e2 :: r) l.state) = true := hs
        rw [ht] at hand
        simp at hand
    | nil =>
      rw [hi] at heq
      cases hst : l.state with
      | none =>
        rw [hst] at heq
        injection heq with h
        injection h with h1 h2
        subst h1; subst h2
        exact ⟨hs, fun _ => ⟨hst, hi⟩⟩
      | some t =>
        rw [hst] at heq
        have hnt : noTerminalItems l.items = true := by rw [hi]; rfl
        exact ih (stepState t l) lx l' (sane_stepState t l hnt) heq

/-- A halted lexer holding exactly one queued error lexeme, as `errorf`
leaves behind. -/
def errLexer : Lexer :=
  { input := str "x", start := 0, pos := 0, state := none, stack := [],
    items := [⟨lexemeType.lexemeError, str "boom"⟩], lastEmittedStart := 0,
    lastEmittedLexemeType := lexemeType.lexemeError }

/-- `errLexer` after its error lexeme has been drained. -/
def errLexerAfter : Lexer := { errLexer with items := [] }

/-- **C10.** The initial lexer satisfies the queue invariant, `nextLexeme`
preserves it, and once `nextLexeme` has returned an error or EOF lexeme the
machine is halted: every subsequent call, for any step budget, returns the
fabricated EOF lexeme and leaves the lexer unchanged — the stream never
resumes, never blocks, and never repeats an earlier lexeme. -/
theorem c10_halted_lexer_only_emits_eof :
    (∀ input, Sane (lexInit input)) ∧
    (∀ (fuel : Nat) (l : Lexer) (lx : lexeme) (l' : Lexer),
      Sane l → nextLexeme fuel l = some (lx, l') → Sane l') ∧
    (∀ (fuel : Nat) (l : Lexer) (lx : lexeme) (l' : Lexer),
      Sane l → nextLexeme fuel l = some (lx, l') →
      isTerminalLexeme lx.typ = true →
      ∀ fuel', nextLexeme fuel' l' = some (eofLexeme, l')) := by
  refine ⟨fun input => rfl,
    fun fuel l lx l' hs heq => (nextLexeme_invariant fuel l lx l' hs heq).1,
    fun fuel l lx l' hs heq ht fuel' => ?_⟩
  obtain ⟨h1, h2⟩ := (nextLexeme_invariant fuel l lx l' hs heq).2 ht
  exact nextLexeme_halted fuel' l' h1 h2

/-- Witness for C10 at a concrete halted lexer: draining the queued error
lexeme halts the stream at EOF forever after. -/
theorem c10_halted_lexer_only_emits_eof_witness :
    nextLexeme 3 errLexerAfter = some (eofLexeme, errLexerAfter) :=
  c10_halted_lexer_only_emits_eof.2.2 0 errLexer
    ⟨lexemeType.lexemeError, str "boom"⟩ errLexerAfter rfl rfl rfl 3

lemma hasPref_append (p t : List Char) : hasPref p (p ++ t) = true := by
  induction p with
  | nil => rfl
  | cons c p2 ih =>
    show (c == c && hasPref p2 (p2 ++ t)) = true
    rw [ih]
    simp

lemma errorfL_last (msg : List Char) (l : Lexer) :
    (errorfL msg l).items.getLast? = some ⟨lexemeType.lexemeError,
      msg ++ str " at position " ++ natDigits l.pos ++ str ", following " ++
        quoteGo (contextL l)⟩ := by
  rw [errorfL_items]
  exact List.getLast?_concat _

/-- A lexer mid-filter whose previously emitted token is the string
literal squote-a-squote and whose next characters are ">1". -/
def strCmpLexer : Lexer :=
  { input := [squote, 'a', squote, '>', '1'], start := 3, pos := 3,
    state := some stateTag.stLexFilterExpr, stack := [], items := [],
    lastEmittedStart := 0,
    lastEmittedLexemeType := lexemeType.lexemeFilterStringLiteral }

/-- **C9.** The lexer rejects the four ordering operators next to a string
literal, and an error lexeme makes compilation fail.  (1) In the shared
ordering-operator case of `lexFilterExpr`, if the preceding context starts
with a string-literal delimiter or the next non-space text after the
operator does, the lexer halts and the last queued lexeme is an error whose
message starts with "strings cannot be compared using" followed by the
operator.  (2), (3) The `lexFilterExpr` dispatch on input starting with
">" or "<" reaches exactly that shared case.  (4) `newPath` fails with the
error lexeme's message when the stream yields an error lexeme.  (5) While
collecting a filter, an error lexeme (followed by the halted lexer's EOF)
always yields a compilation error, never success. -/
theorem c9_string_comparison_rejected :
    (∀ (l : Lexer) (opText : List Char) (opLen : Nat) (opType : lexemeType),
      ((opText, opLen, opType) =
          (str ">=", 2, lexemeType.lexemeFilterGreaterThanOrEqual) ∨
        (opText, opLen, opType) = (str ">", 1, lexemeType.lexemeFilterGreaterThan) ∨
        (opText, opLen, opType) = (str "<=", 2, lexemeType.lexemeFilterLessThanOrEqual) ∨
        (opText, opLen, opType) = (str "<", 1, lexemeType.lexemeFilterLessThan)) →
      (hasPref [squote] (contextL l) = true ∨
        hasPrefL [squote] (stripWS (emitL opType (advance opLen l))) = true) →
      (orderingOpCase l opText opLen opType).state = none ∧
      ∃ v, (orderingOpCase l opText opLen opType).items.getLast? =
          some ⟨lexemeType.lexemeError, v⟩ ∧
        hasPref (str "strings cannot be compared using " ++ opText) v = true) ∧
    (∀ (l : Lexer) (rest : List Char), restOf l = '>' :: rest →
      lexFilterExprDispatch l =
        if hasPrefL (str ">=") l then
          orderingOpCase l (str ">=") 2 lexemeType.lexemeFilterGreaterThanOrEqual
        else orderingOpCase l (str ">") 1 lexemeType.lexemeFilterGreaterThan) ∧
    (∀ (l : Lexer) (rest : List Char), restOf l = '<' :: rest →
      lexFilterExprDispatch l =
        if hasPrefL (str "<=") l then
          orderingOpCase l (str "<=") 2 lexemeType.lexemeFilterLessThanOrEqual
        else orderingOpCase l (str "<") 1 lexemeType.lexemeFilterLessThan) ∧
    (∀ (fuel : Nat) (l : Lexer) (v : List Char) (rest : List lexeme)
        (mkFilter : List lexeme → YamlNode → YamlNode → Bool),
      l.items = ⟨lexemeType.lexemeError, v⟩ :: rest →
      newPath mkFilter (fuel + 1) l = Except.error v) ∧
    (∀ (fuel level : Nat) (acc : List lexeme) (v : List Char) (l : Lexer),
      l.state = none → l.items = [⟨lexemeType.lexemeError, v⟩] →
      ∃ e, collectFilter fuel level acc l = Except.error e) := by
  refine ⟨?_, ?_, ?_, ?_, ?_⟩
  · intro l opText opLen opType hmem hadj
    unfold orderingOpCase
    cases h1 : hasPref [squote] (contextL l) with
    | true =>
      rw [if_pos rfl]
      refine ⟨errorfL_state _ _, _, errorfL_last _ _, ?_⟩
      simp only [List.append_assoc]
      exact hasPref_append _ _
    | false =>
      rcases hadj with h | h2
      · rw [h1] at h; cases h
      · rw [if_neg Bool.false_ne_true, if_pos h2]
        refine ⟨errorfL_state _ _, _, errorfL_last _ _, ?_⟩
        simp only [List.append_assoc]
        exact hasPref_append _ _
  · intro l rest hr
    have e0 : (restOf l).isEmpty = false := by rw [hr]; rfl
    have e1 : hasPrefL (str ")]") l = false := by unfold hasPrefL; rw [hr]; rfl
    have e2 : hasPrefL (str "(") l = false := by unfold hasPrefL; rw [hr]; rfl
    have e3 : hasPrefL (str ")") l = false := by unfold hasPrefL; rw [hr]; rfl
    have e4 : hasPrefL (str "@") l = false := by unfold hasPrefL; rw [hr]; rfl
    have e5 : hasPrefL (str "&&") l = false := by unfold hasPrefL; rw [hr]; rfl
    have e6 : hasPrefL (str "||") l = false := by unfold hasPrefL; rw [hr]; rfl
    have e7 : hasPrefL (str "==") l = false := by unfold hasPrefL; rw [hr]; rfl
    have e8 : hasPrefL (str "!=") l = false := by unfold hasPrefL; rw [hr]; rfl
    have e9 : hasPrefL (str ">") l = true := by unfold hasPrefL; rw [hr]; rfl
    unfold lexFilterExprDispatch
    simp only [e0, e1, e2, e3, e4, e5, e6, e7, e8, e9, Bool.false_eq_true,
      if_false, if_true]
  · intro l rest hr
    have e0 : (restOf l).isEmpty = false := by rw [hr]; rfl
    have e1 : hasPrefL (str ")]") l = false := by unfold hasPrefL; rw [hr]; rfl
    have e2 : hasPrefL (str "(") l = false := by unfold hasPrefL; rw [hr]; rfl
    have e3 : hasPrefL (str ")") l = false := by unfold hasPrefL; rw [hr]; rfl
    have e4 : hasPrefL (str "@") l = false := by unfold hasPrefL; rw [hr]; rfl
    have e5 : hasPrefL (str "&&") l = false := by unfold hasPrefL; rw [hr]; rfl
    have e6 : hasPrefL (str "||") l = false := by unfold hasPrefL; rw [hr]; rfl
    have e7 : hasPrefL (str "==") l = false := by unfold hasPrefL; rw [hr]; rfl
    have e8 : hasPrefL (str "!=") l = false := by unfold hasPrefL; rw [hr]; rfl
    have e9 : hasPrefL (str ">=") l = false := by unfold hasPrefL; rw [hr]; rfl
    have e10 : hasPrefL (str ">") l = false := by unfold hasPrefL; rw [hr]; rfl
    have e11 : hasPrefL (str "<") l = true := by unfold hasPrefL; rw [hr]; rfl
    unfold lexFilterExprDispatch
    simp only [e0, e1, e2, e3, e4, e5, e6, e7, e8, e9, e10, e11,
      Bool.false_eq_true, if_false, if_true]
  · intro fuel l v rest mkFilter hi
    have hn : nextLexeme fuel l =
        some (⟨lexemeType.lexemeError, v⟩, { l with items := rest }) := by
      unfold nextLexeme; rw [hi]
    unfold newPath
    rw [hn]
  · intro fuel level acc v l h1 h2
    cases fuel with
    | zero => exact ⟨str "fuel exhausted", rfl⟩
    | succ n =>
      have hn : nextLexeme n l =
          some (⟨lexemeType.lexemeError, v⟩, { l with items := [] }) := by
        unfold nextLexeme; rw [h2]
      have inner : ∃ e, collectFilter n level
          (acc ++ [⟨lexemeType.lexemeError, v⟩]) { l with items := [] } =
          Except.error e := by
        cases n with
        | zero => exact ⟨str "fuel exhausted", rfl⟩
        | succ m =>
          have hl2 : ({ l with items := ([] : List lexeme) }).state = none := h1
          have hn2 : nextLexeme m { l with items := ([] : List lexeme) } =
              some (eofLexeme, { l with items := ([] : List lexeme) }) :=
            nextLexeme_halted m _ hl2 rfl
          refine ⟨str "missing end of filter", ?_⟩
          conv_lhs => unfold collectFilter
          rw [hn2]
          rfl
      obtain ⟨e, he⟩ := inner
      refine ⟨e, ?_⟩
      conv_lhs => unfold collectFilter
      rw [hn]
      exact he

/-- Witness for C9 at `strCmpLexer`: the operator ">" directly after a
string literal halts the lexer with a "strings cannot be compared using"
error lexeme, and compiling a stream holding such an error lexeme fails. -/
theorem c9_string_comparison_rejected_witness :
    ((orderingOpCase strCmpLexer (str ">") 1
        lexemeType.lexemeFilterGreaterThan).state = none ∧
      ∃ v, (orderingOpCase strCmpLexer (str ">") 1
            lexemeType.lexemeFilterGreaterThan).items.getLast? =
          some ⟨lexemeType.lexemeError, v⟩ ∧
        hasPref (str "strings cannot be compared using " ++ str ">") v = true) ∧
    newPath (fun _ _ _ => false) 1
      { input := [], start := 0, pos := 0, state := none, stack := [],
        items := [⟨lexemeType.lexemeError,
          str "strings cannot be compared using >"⟩],
        lastEmittedStart := 0,
        lastEmittedLexemeType := lexemeType.lexemeError } =
      Except.error (str "strings cannot be compared using >") :=
  ⟨c9_string_comparison_rejected.1 strCmpLexer (str ">") 1
      lexemeType.lexemeFilterGreaterThan (Or.inr (Or.inl rfl)) (Or.inl rfl),
    c9_string_comparison_rejected.2.2.2.1 0 _ (str "strings cannot be compared using >")
      [] (fun _ _ _ => false) rfl⟩

end YamlPath
